import Mathlib

/-!
# Port-forwarding configuration (`pkg/devspace/configure/port.go`)

A shallow embedding of the Go file `port.go` and a verification of its
specification.

Conventions of the embedding

* Go strings are Lean `String`s; the text functions work on the character list.
  The separators `,` `:` `=` are single ASCII bytes, so splitting the UTF-8 bytes
  and splitting the characters give the same pieces.
* A Go function returning `(T, error)` is a function into `Except Error T`.
* A pointer field that the code compares with `nil` is an `Option`; a pointer field
  that the code dereferences without any test is the value it points to, except
  the deployment name, which the specification treats as optional.
* The operations `AddPort` and `RemovePort` work on the loaded configuration of the
  config store. They are functions from a `State` (the loaded config and the log
  of save calls) to `Option (State × Option Error)`: `none` is a run-time panic
  (nil dereference or index out of range), `some (s, e)` is a return with the
  Go `error` value `e`.
* Go `int` is 64 bits wide.
-/

set_option autoImplicit false

deriving instance DecidableEq for Except

namespace Devspace.Configure

/-! ## The Go standard library functions used by `port.go` -/

/-- The two error causes of `strconv.NumError` that `strconv.Atoi` produces. -/
inductive NumErr where
  | ErrSyntax
  | ErrRange
  deriving DecidableEq, Repr

/-- Go `error` values: a formatted message (`fmt.Errorf` without an error argument),
a `*strconv.NumError`, and a message formatted around the text of another error
(`fmt.Errorf("...: %s", err.Error())`). -/
inductive Error where
  | errorf (msg : String)
  | numError (fn : String) (num : String) (err : NumErr)
  | wrapf (msg : String) (cause : Error)
  deriving DecidableEq, Repr

/-- The pieces of a character list between the occurrences of `sep`; never empty. -/
def splitChars (sep : Char) : List Char → List (List Char)
  | [] => [[]]
  | c :: cs =>
    if c = sep then [] :: splitChars sep cs
    else
      match splitChars sep cs with
      | [] => [[c]]
      | p :: ps => (c :: p) :: ps

/-- Go `strings.Split(s, sep)` for a separator of one character. -/
def Split (s : String) (sep : Char) : List String :=
  (splitChars sep s.data).map String.mk

/-- Go `unicode.IsSpace`. -/
def isSpace (c : Char) : Bool :=
  c = '\t' || c = '\n' || c = '\x0b' || c = '\x0c' || c = '\r' || c = ' ' ||
  c.toNat = 0x85 || c.toNat = 0xA0 || c.toNat = 0x1680 ||
  (0x2000 ≤ c.toNat && c.toNat ≤ 0x200a) ||
  c.toNat = 0x2028 || c.toNat = 0x2029 || c.toNat = 0x202f || c.toNat = 0x205f ||
  c.toNat = 0x3000

/-- Go `strings.TrimSpace`: drop the leading and the trailing white space. -/
def TrimSpace (s : String) : String :=
  String.mk ((s.data.dropWhile isSpace).reverse.dropWhile isSpace).reverse

/-- Largest value of a Go `uint64`. -/
def maxUint64 : Nat := 2 ^ 64 - 1

/-- The digit loop of `strconv.ParseUint(s, 10, 64)`: `n` is the value read so far. -/
def parseUintLoop (n : Nat) : List Char → Except NumErr Nat
  | [] => .ok n
  | c :: cs =>
    if c.isDigit then
      if n ≥ maxUint64 / 10 + 1 then .error .ErrRange
      else
        let n1 := n * 10 + (c.toNat - '0'.toNat)
        if n1 > maxUint64 then .error .ErrRange
        else parseUintLoop n1 cs
    else .error .ErrSyntax

/-- Go `strconv.ParseUint(s, 10, 64)` on the characters of `s`. -/
def ParseUint (s : List Char) : Except NumErr Nat :=
  match s with
  | [] => .error .ErrSyntax
  | _ => parseUintLoop 0 s

/-- Go `strconv.ParseInt(s, 10, 0)` on the characters of `s`, for a 64 bit `int`. -/
def ParseInt (s : List Char) : Except NumErr Int :=
  match s with
  | [] => .error .ErrSyntax
  | c :: cs =>
    let neg := c = '-'
    let digits := if c = '+' ∨ c = '-' then cs else c :: cs
    match ParseUint digits with
    | .error .ErrSyntax => .error .ErrSyntax
    | .error .ErrRange => .error .ErrRange
    | .ok un =>
      if ¬ neg ∧ un ≥ 2 ^ 63 then .error .ErrRange
      else if neg ∧ un > 2 ^ 63 then .error .ErrRange
      else .ok (if neg then - (un : Int) else (un : Int))

/-- Go `strconv.Atoi`: a decimal integer with an optional sign, in the `int` range. -/
def Atoi (s : String) : Except Error Int :=
  match ParseInt s.data with
  | .ok n => .ok n
  | .error e => .error (.numError "Atoi" s e)

/-- Go `strconv.Itoa`: the decimal rendering of an integer. -/
def Itoa (i : Int) : String :=
  match i with
  | .ofNat n => String.mk (Nat.toDigits 10 n)
  | .negSucc n => String.mk ('-' :: Nat.toDigits 10 (n + 1))

/-! ## The configuration types of package `latest` used by `port.go` -/

/-- Modelled from the spec: the type `latest.PortMapping` is not part of the sources.
A port mapping is a pair of integers, the local and the remote port. -/
structure PortMapping where
  LocalPort : Int
  RemotePort : Int
  deriving DecidableEq, Repr

/-- A Go `map[string]*string`: `none` is the nil map, `some kvs` a map with the
entries `kvs` (their keys are distinct in every map the program builds). -/
abbrev LabelMap := Option (List (String × String))

/-- The entries of a map; the nil map has none. -/
def LabelMap.entries (m : LabelMap) : List (String × String) := m.getD []

/-- Go `len(m)` for a map. -/
def LabelMap.len (m : LabelMap) : Nat := m.entries.length

/-- Modelled from the spec: the type `latest.PortForwardingConfig` is not part of the
sources. A forwarding rule has an optional selector (`LabelSelector`, a pointer to a
map), an optional service reference (`Selector`), a namespace and a sequence of
port mappings. -/
structure PortForwardingConfig where
  Namespace : Option String
  Selector : Option String
  LabelSelector : Option LabelMap
  PortMappings : List PortMapping
  deriving DecidableEq, Repr

/-- Modelled from the spec: the type `latest.SelectorConfig` is not part of the
sources. An entry of the configured selector list has a name and a selector map. -/
structure SelectorConfig where
  Name : String
  LabelSelector : LabelMap
  deriving DecidableEq, Repr

/-- Modelled from the spec: the type `latest.DeploymentConfig` is not part of the
sources. A deployment may have a name, and `Helm` is present when it is Helm-based. -/
structure DeploymentConfig where
  Name : Option String
  Helm : Option Unit
  deriving DecidableEq, Repr

/-- Modelled from the spec: the type `latest.DevConfig` is not part of the sources. It
holds the configured selector list and the forwarding rules, both optional. -/
structure DevConfig where
  Selectors : Option (List SelectorConfig)
  Ports : Option (List PortForwardingConfig)
  deriving DecidableEq, Repr

/-- Modelled from the spec: the type `latest.Config` is not part of the sources. Only
the fields that `port.go` reads or writes are kept. -/
structure Config where
  Deployments : Option (List DeploymentConfig)
  Dev : Option DevConfig
  deriving DecidableEq, Repr

/-- The rule sequence of a config; it is empty when the config has none. -/
def Config.rules (config : Config) : List PortForwardingConfig :=
  match config.Dev with
  | none => []
  | some dev =>
    match dev.Ports with
    | none => []
    | some ps => ps

/-! ## The config store (package `configutil`) -/

/-- The loaded config of the store (what `configutil.GetBaseConfig()` returns a
reference to) and the configs on which `configutil.SaveLoadedConfig()` was called,
oldest first. -/
structure State where
  config : Config
  saveCalls : List Config
  deriving DecidableEq, Repr

/-- Modelled from the spec: `configutil.SaveLoadedConfig` is not part of the sources.
The save is a fallible operation of the store: `save` gives the error the store
answers when it is asked to persist a config, and the call is recorded. -/
def SaveLoadedConfig (save : Config → Option Error) (s : State) : State × Option Error :=
  ({ s with saveCalls := s.saveCalls ++ [s.config] }, save s.config)

/-! ## The helpers of the package that `port.go` calls -/

/-- Modelled from the spec: `areLabelMapsEqual` is not part of the sources. Two
selector sets are equal iff they contain exactly the same key/value pairs: the
sizes are equal and every pair is present in both. -/
def areLabelMapsEqual (map1 map2 : LabelMap) : Bool :=
  map1.len == map2.len &&
    map1.entries.all (fun kv => map2.entries.contains kv) &&
    map2.entries.all (fun kv => map1.entries.contains kv)

/-- Store `value` under `key`, overwriting the value of an earlier occurrence. -/
def setLabel (key value : String) : List (String × String) → List (String × String)
  | [] => [(key, value)]
  | kv :: rest =>
    if kv.1 = key then (key, value) :: rest else kv :: setLabel key value rest

/-- The token loop of `parseSelectors`. -/
def parseSelectors.loop (selectorMap : List (String × String)) :
    List String → Except Error (List (String × String))
  | [] => .ok selectorMap
  | token :: rest =>
    match Split token '=' with
    | [key, value] => parseSelectors.loop (setLabel key value selectorMap) rest
    | _ => .error (.errorf "malformed selector token")

/-- Modelled from the spec: `parseSelectors` is not part of the sources. The empty
text gives the empty set; otherwise the text is split on `,` and every token on
`=`; a token without exactly one `=` is an error; of two tokens with the same key
the last one wins. -/
def parseSelectors (selectorString : String) : Except Error LabelMap :=
  if selectorString = "" then .ok (some [])
  else
    match parseSelectors.loop [] (Split selectorString ',') with
    | .ok selectorMap => .ok (some selectorMap)
    | .error err => .error err

/-! ## `parsePortMappings` -/

/-- The loop of `parsePortMappings` (lines 183-213): `portMappings` holds the
mappings appended so far, the list argument the segments still to be read. The
match on the parts is the length test of line 186 together with the indexing
`portMapping[0]`, `portMapping[1]`. -/
def parsePortMappings.loop (portMappings : List PortMapping) :
    List String → Except Error (List PortMapping)
  | [] => .ok portMappings
  | v :: rest =>
    match Split v ':' with
    | [p0] =>
      match Atoi p0 with
      | .error err => .error err
      | .ok firstPort =>
        parsePortMappings.loop (portMappings ++ [⟨firstPort, firstPort⟩]) rest
    | [p0, p1] =>
      match Atoi p0 with
      | .error err => .error err
      | .ok firstPort =>
        match Atoi p1 with
        | .error err => .error err
        | .ok secondPort =>
          parsePortMappings.loop (portMappings ++ [⟨firstPort, secondPort⟩]) rest
    | _ => .error (.errorf ("Error parsing port mapping: " ++ v))

/-- The function `parsePortMappings` of `port.go` (lines 179-216). -/
def parsePortMappings (portMappingsString : String) : Except Error (List PortMapping) :=
  parsePortMappings.loop [] (Split portMappingsString ',')

/-! ## Predicates used to state the properties of `parsePortMappings` -/

/-- A segment is well formed: it has one or two colon-separated parts and every
part parses as an integer. -/
def WellFormedSegment (seg : String) : Prop :=
  ((Split seg ':').length = 1 ∨ (Split seg ':').length = 2) ∧
    ∀ p ∈ Split seg ':', (Atoi p).isOk = true

/-- A segment is malformed: it has three or more colon-separated parts, or a part
that does not parse as an integer. -/
def MalformedSegment (seg : String) : Prop :=
  3 ≤ (Split seg ':').length ∨ ∃ p ∈ Split seg ':', (Atoi p).isOk = false

instance : DecidablePred WellFormedSegment := fun seg => by
  unfold WellFormedSegment; infer_instance

instance : DecidablePred MalformedSegment := fun seg => by
  unfold MalformedSegment; infer_instance

/-- The mapping `m` is the one the segment `seg` denotes: local is the first part,
remote the second part when there is one and the local port otherwise. -/
def SegmentDenotes (seg : String) (m : PortMapping) : Prop :=
  (∃ a, Split seg ':' = [a] ∧ Atoi a = .ok m.LocalPort ∧ m.RemotePort = m.LocalPort) ∨
  (∃ a b, Split seg ':' = [a, b] ∧ Atoi a = .ok m.LocalPort ∧ Atoi b = .ok m.RemotePort)

/-! ## The functions of `port.go` -/

/-- The loop of `GetNameOfFirstHelmDeployment` (lines 15-19); `none` is the panic
of dereferencing the absent name of a Helm-based deployment. -/
def GetNameOfFirstHelmDeployment.loop : List DeploymentConfig → Option String
  | [] => some "devspace"
  | deploymentConfig :: rest =>
    if deploymentConfig.Helm.isSome then deploymentConfig.Name
    else GetNameOfFirstHelmDeployment.loop rest

/-- The function `GetNameOfFirstHelmDeployment` of `port.go` (lines 13-23); `none`
is a run-time panic. -/
def GetNameOfFirstHelmDeployment (config : Config) : Option String :=
  match config.Deployments with
  | some deployments => GetNameOfFirstHelmDeployment.loop deployments
  | none => some "devspace"

/-- The function `getServiceWithName` of `port.go` (lines 218-226); `none` is the
nil result. -/
def getServiceWithName (services : List SelectorConfig) (name : String) :
    Option SelectorConfig :=
  match services with
  | [] => none
  | service :: rest =>
    if service.Name = name then some service else getServiceWithName rest name

/-- The function `containsPort` of `port.go` (lines 131-139). -/
def containsPort (port : String) (ports : List String) : Bool :=
  match ports with
  | [] => false
  | v :: rest => if TrimSpace v = port then true else containsPort port rest

/-- The effective selector set of a rule (lines 148-154): the empty map when the
rule has no label selector. -/
def effectiveSelectors (v : PortForwardingConfig) : LabelMap :=
  match v.LabelSelector with
  | some m => m
  | none => some []

/-- The loop of `insertOrReplacePortMapping` (lines 147-162) over the rules: the
rules after the merge when a rule matches, `none` when the loop ends without a
match. -/
def insertOrReplacePortMapping.loop (labelSelectorMap : LabelMap)
    (portMappings : List PortMapping) :
    List PortForwardingConfig → Option (List PortForwardingConfig)
  | [] => none
  | v :: rest =>
    if areLabelMapsEqual (effectiveSelectors v) labelSelectorMap then
      some ({ v with PortMappings := v.PortMappings ++ portMappings } :: rest)
    else
      match insertOrReplacePortMapping.loop labelSelectorMap portMappings rest with
      | some merged => some (v :: merged)
      | none => none

/-- The function `insertOrReplacePortMapping` of `port.go` (lines 141-177); `none`
is the panic of dereferencing an absent `Dev` section. -/
def insertOrReplacePortMapping (config : Config) (nspace : String)
    (labelSelectorMap : LabelMap) (serviceName : String)
    (portMappings : List PortMapping) : Option Config :=
  match config.Dev with
  | none => none
  | some dev =>
    let ports : List PortForwardingConfig :=
      match dev.Ports with
      | none => []
      | some ps => ps
    match insertOrReplacePortMapping.loop labelSelectorMap portMappings ports with
    | some merged => some { config with Dev := some { dev with Ports := some merged } }
    | none =>
      let labelSelectorMap : LabelMap := if serviceName ≠ "" then none else labelSelectorMap
      some { config with Dev := some { dev with Ports := some (ports ++ [{
        LabelSelector := some labelSelectorMap
        PortMappings := portMappings
        Namespace := some nspace
        Selector := some serviceName }]) } }

/-- The configured selector list when it is present and not empty (line 36). -/
def configuredSelectors (config : Config) : Option (List SelectorConfig) :=
  match config.Dev with
  | none => none
  | some dev =>
    match dev.Selectors with
    | none => none
    | some [] => none
    | some (first :: more) => some (first :: more)

/-- Lines 35-52 of `AddPort`: the values of `labelSelectorMap` and `labelSelector`
after the resolution. `none` is a run-time panic, an error the return of line 43. -/
def AddPort.resolve (config : Config) (labelSelector serviceName : String) :
    Option (Except Error (LabelMap × String)) :=
  if labelSelector = "" then
    match configuredSelectors config with
    | some services =>
      if serviceName ≠ "" then
        match getServiceWithName services serviceName with
        | none => some (.error (.errorf ("no service with name " ++ serviceName ++ " exists")))
        | some service => some (.ok (service.LabelSelector, labelSelector))
      else
        match services with
        | [] => none
        | service :: _ => some (.ok (service.LabelSelector, labelSelector))
    | none =>
      match GetNameOfFirstHelmDeployment config with
      | none => none
      | some name => some (.ok (none, "release=" ++ name))
  else some (.ok (none, labelSelector))

/-- Lines 35-59 of `AddPort`: the target selector set. The selector text is parsed
only when the resolution left the map nil (line 54). -/
def AddPort.target (config : Config) (labelSelector serviceName : String) :
    Option (Except Error LabelMap) :=
  match AddPort.resolve config labelSelector serviceName with
  | none => none
  | some (.error err) => some (.error err)
  | some (.ok (some m, _)) => some (.ok (some m))
  | some (.ok (none, labelSelector)) =>
    match parseSelectors labelSelector with
    | .error err => some (.error (.wrapf "Error parsing selectors: " err))
    | .ok labelSelectorMap => some (.ok labelSelectorMap)

/-- The error of line 32. -/
def bothSpecified : Error :=
  .errorf ("both service and label-selector specified. This is illegal because the " ++
    "label-selector is already specified in the referenced service. " ++
    "Therefore defining both is redundant")

/-- The function `AddPort` of `port.go` (lines 26-74) on the state of the config
store; `none` is a run-time panic (`args[0]` of an empty `args`, or a nil
dereference). -/
def AddPort (save : Config → Option Error) (s : State)
    (nspace labelSelector serviceName : String) (args : List String) :
    Option (State × Option Error) :=
  if labelSelector ≠ "" ∧ serviceName ≠ "" then some (s, some bothSpecified)
  else
    match AddPort.target s.config labelSelector serviceName with
    | none => none
    | some (.error err) => some (s, some err)
    | some (.ok labelSelectorMap) =>
      match args with
      | [] => none
      | arg0 :: _ =>
        match parsePortMappings arg0 with
        | .error err => some (s, some (.wrapf "Error parsing port mappings: " err))
        | .ok portMappings =>
          match insertOrReplacePortMapping s.config nspace labelSelectorMap serviceName
              portMappings with
          | none => none
          | some config =>
            match SaveLoadedConfig save { s with config := config } with
            | (s, some err) => some (s, some (.wrapf "Couldn't save config file: " err))
            | (s, none) => some (s, none)

/-- The inner loop of `RemovePort` (lines 106-112): `newPortMappings` holds the
mappings kept so far. -/
def RemovePort.filterMappings (ports : List String) (newPortMappings : List PortMapping) :
    List PortMapping → List PortMapping
  | [] => newPortMappings
  | pm :: rest =>
    if containsPort (Itoa pm.LocalPort) ports || containsPort (Itoa pm.RemotePort) ports then
      RemovePort.filterMappings ports newPortMappings rest
    else RemovePort.filterMappings ports (newPortMappings ++ [pm]) rest

/-- The outer loop of `RemovePort` (lines 99-118): `newPortForwards` holds the rules
kept so far. -/
def RemovePort.loop (removeAll : Bool) (ports : List String)
    (newPortForwards : List PortForwardingConfig) :
    List PortForwardingConfig → List PortForwardingConfig
  | [] => newPortForwards
  | v :: rest =>
    if removeAll then RemovePort.loop removeAll ports newPortForwards rest
    else
      let newPortMappings := RemovePort.filterMappings ports [] v.PortMappings
      if newPortMappings.length > 0 then
        RemovePort.loop removeAll ports
          (newPortForwards ++ [{ v with PortMappings := newPortMappings }]) rest
      else RemovePort.loop removeAll ports newPortForwards rest

/-- The ports text of `RemovePort` (lines 85-88): the argument when there is exactly
one, the empty text otherwise. -/
def argPorts (args : List String) : String :=
  match args with
  | [a] => a
  | _ => ""

/-- The error of line 91. -/
def nothingSpecified : Error :=
  .errorf "You have to specify at least one of the supported flags"

/-- The function `RemovePort` of `port.go` (lines 77-129) on the state of the config
store; `none` is the panic of dereferencing an absent `Dev` section. -/
def RemovePort (save : Config → Option Error) (s : State) (removeAll : Bool)
    (labelSelector : String) (args : List String) : Option (State × Option Error) :=
  match parseSelectors labelSelector with
  | .error err => some (s, some (.wrapf "Error parsing selectors: " err))
  | .ok labelSelectorMap =>
    if labelSelectorMap.len = 0 ∧ removeAll = false ∧ argPorts args = "" then
      some (s, some nothingSpecified)
    else
      let ports := Split (argPorts args) ','
      match s.config.Dev with
      | none => none
      | some dev =>
        match dev.Ports with
        | some (v :: rest) =>
          let newPortForwards := RemovePort.loop removeAll ports [] (v :: rest)
          let config : Config :=
            { s.config with Dev := some { dev with Ports := some newPortForwards } }
          match SaveLoadedConfig save { s with config := config } with
          | (s, some err) => some (s, some (.wrapf "Couldn't save config file: " err))
          | (s, none) => some (s, none)
        | _ => some (s, none)

/-! ## The removal stated in the words of the specification -/

/-- A port is listed: its decimal rendering equals some comma-separated token of the
ports text after trimming the surrounding white space. -/
def portListed (portsText : String) (port : Int) : Prop :=
  ∃ token ∈ Split portsText ',', TrimSpace token = Itoa port

instance (portsText : String) (port : Int) : Decidable (portListed portsText port) := by
  unfold portListed; infer_instance

/-- The mappings of a rule that survive: those of which neither the local nor the
remote port is listed, in their original order. -/
def survivingMappings (portsText : String) (v : PortForwardingConfig) : List PortMapping :=
  v.PortMappings.filter
    (fun pm => ¬ portListed portsText pm.LocalPort ∧ ¬ portListed portsText pm.RemotePort)

/-- The rules after a removal by ports: every rule keeps its surviving mappings, and
the rules that retain no mapping are dropped; the order is the original one. -/
def filteredRules (portsText : String) (rules : List PortForwardingConfig) :
    List PortForwardingConfig :=
  rules.filterMap (fun v =>
    if survivingMappings portsText v = [] then none
    else some { v with PortMappings := survivingMappings portsText v })

/-- The rules after `RemovePort`: none when everything is removed, the rules filtered
by the ports text otherwise. -/
def remainingRules (removeAll : Bool) (portsText : String)
    (rules : List PortForwardingConfig) : List PortForwardingConfig :=
  if removeAll then [] else filteredRules portsText rules

/-- The error `RemovePort` and `AddPort` return when the save fails. -/
def saveError (result : Option Error) : Option Error :=
  match result with
  | some err => some (.wrapf "Couldn't save config file: " err)
  | none => none

/-! ## Sample data -/

/-- A rule selecting `{app=a}` in namespace `dev` that forwards port 80. -/
def ruleA : PortForwardingConfig :=
  { Namespace := some "dev", Selector := none,
    LabelSelector := some (some [("app", "a")]), PortMappings := [⟨80, 80⟩] }

/-- A rule selecting `{app=b}` that forwards port 90. -/
def ruleB : PortForwardingConfig :=
  { Namespace := none, Selector := none,
    LabelSelector := some (some [("app", "b")]), PortMappings := [⟨90, 90⟩] }

/-- A second rule selecting `{app=a}`, without mappings. -/
def ruleA2 : PortForwardingConfig :=
  { Namespace := none, Selector := none,
    LabelSelector := some (some [("app", "a")]), PortMappings := [] }

/-- A config without rules whose selector list has the service `svc` selecting
`{app=a}`. -/
def serviceConfig : Config :=
  { Deployments := none,
    Dev := some { Selectors := some [{ Name := "svc", LabelSelector := some [("app", "a")] }],
                  Ports := none } }

/-- A config with the given rules, without selector list and deployments. -/
def configWith (rules : List PortForwardingConfig) : Config :=
  { Deployments := none, Dev := some { Selectors := none, Ports := some rules } }

/-! ## Predicates on rules -/

/-- The service reference of a rule is set: it is present and not the empty name. -/
def serviceSet (v : PortForwardingConfig) : Prop :=
  match v.Selector with
  | some name => name ≠ ""
  | none => False

instance : DecidablePred serviceSet := fun v => by
  unfold serviceSet; cases v.Selector <;> infer_instance

/-- The selector of a rule is empty or absent: its effective selector set has no
entry. -/
def selectorAbsent (v : PortForwardingConfig) : Prop :=
  (effectiveSelectors v).len = 0

instance : DecidablePred selectorAbsent := fun v => by
  unfold selectorAbsent; infer_instance

/-- Selector and service reference of a rule exclude each other: a set service
reference implies an empty or absent selector. -/
def MutuallyExclusive (v : PortForwardingConfig) : Prop :=
  serviceSet v → selectorAbsent v

instance : DecidablePred MutuallyExclusive := fun v => by
  unfold MutuallyExclusive; infer_instance

/-- A rule bound to the service `db`, without selector. -/
def ruleS : PortForwardingConfig :=
  { Namespace := none, Selector := some "db", LabelSelector := none,
    PortMappings := [⟨5432, 5432⟩] }

/-! ## The resolution of `AddPort` stated in the words of the specification -/

/-- The error of line 43: no entry of the selector list has the given name. -/
def noSuchService (serviceName : String) : Error :=
  .errorf ("no service with name " ++ serviceName ++ " exists")

/-- The deployments of a config; there are none when the list is absent. -/
def Config.deployments (config : Config) : List DeploymentConfig :=
  config.Deployments.getD []

/-- The first deployment, in config order, that is Helm-based. -/
def firstHelmDeployment (config : Config) : Option DeploymentConfig :=
  config.deployments.find? (fun d => d.Helm.isSome)

/-- The result of the selector parser as `AddPort` passes it on (lines 55-58). -/
def parsedSelectors (selectorString : String) : Except Error LabelMap :=
  match parseSelectors selectorString with
  | .error err => .error (.wrapf "Error parsing selectors: " err)
  | .ok labelSelectorMap => .ok labelSelectorMap

/-- A config with a plain deployment `api` followed by the Helm-based deployments
`web` and `db`, without `Dev` section. -/
def helmConfig : Config :=
  { Deployments := some [{ Name := some "api", Helm := none },
                         { Name := some "web", Helm := some () },
                         { Name := some "db", Helm := some () }],
    Dev := none }

/-- The rule `AddPort` creates for the selector text `app=a`, the namespace `dev` and
the port text `"80"`. -/
def ruleAdded : PortForwardingConfig :=
  { Namespace := some "dev", Selector := some "",
    LabelSelector := some (some [("app", "a")]), PortMappings := [⟨80, 80⟩] }

/-! ## Decimal integers in the words of the specification -/

/-- The number a list of decimal digits denotes. -/
def digitsValue (ds : List Char) : Nat :=
  ds.foldl (fun n c => n * 10 + (c.toNat - '0'.toNat)) 0

/-- The text `p` is a (possibly signed) decimal integer of value `n`: a sequence of
one or more decimal digits, after an optional sign `+` or `-`. -/
def DecimalText (p : String) (n : Int) : Prop :=
  ∃ ds : List Char, ds ≠ [] ∧ (∀ c ∈ ds, c.isDigit = true) ∧
    ((p.data = ds ∧ n = digitsValue ds) ∨
     (p.data = '+' :: ds ∧ n = digitsValue ds) ∨
     (p.data = '-' :: ds ∧ n = -(digitsValue ds : Int)))

/-- The text `token` is `text` with white space around it: what trimming the
surrounding white space of `token` may give. -/
def PaddedWith (token text : String) : Prop :=
  ∃ pre post : List Char, token.data = pre ++ text.data ++ post ∧
    (∀ c ∈ pre, isSpace c = true) ∧ (∀ c ∈ post, isSpace c = true)

/-- A config whose only deployment is Helm-based and has no name, with an empty `Dev`
section. -/
def namelessHelmConfig : Config :=
  { Deployments := some [{ Name := none, Helm := some () }],
    Dev := some { Selectors := none, Ports := none } }

/-- A config whose only deployment is Helm-based and is named `a=b`, with an empty
`Dev` section. -/
def oddNameConfig : Config :=
  { Deployments := some [{ Name := some "a=b", Helm := some () }],
    Dev := some { Selectors := none, Ports := none } }

/-- A config without deployments and without `Dev` section. -/
def bareConfig : Config :=
  { Deployments := none, Dev := none }

/-! # Theorems -/

/-! ## Lemmas on splitting -/

theorem splitChars_ne_nil (sep : Char) (cs : List Char) : splitChars sep cs ≠ [] := by
  induction cs with
  | nil => simp [splitChars]
  | cons c cs ih =>
    unfold splitChars
    split
    · simp
    · split <;> simp

theorem Split_ne_nil (s : String) (sep : Char) : Split s sep ≠ [] := by
  simp [Split, splitChars_ne_nil]

theorem isOk_eq_true_iff {ε α : Type} (x : Except ε α) :
    x.isOk = true ↔ ∃ a, x = .ok a := by
  cases x <;> simp [Except.isOk, Except.toBool]

/-! ## `parsePortMappings` on well-formed and on malformed text -/

theorem parsePortMappings_loop_wellFormed (segs : List String) :
    ∀ acc : List PortMapping, (∀ seg ∈ segs, WellFormedSegment seg) →
      ∃ ms, parsePortMappings.loop acc segs = .ok (acc ++ ms) ∧
        List.Forall₂ SegmentDenotes segs ms := by
  induction segs with
  | nil => intro acc _; exact ⟨[], by simp [parsePortMappings.loop], List.Forall₂.nil⟩
  | cons v rest ih =>
    intro acc h
    have hv : WellFormedSegment v := h v (List.mem_cons_self _ _)
    have hrest : ∀ seg ∈ rest, WellFormedSegment seg :=
      fun seg hs => h seg (List.mem_cons_of_mem _ hs)
    obtain ⟨hlen, hparts⟩ := hv
    match hsp : Split v ':' with
    | [] => exact absurd hsp (Split_ne_nil _ _)
    | [p0] =>
      rw [hsp] at hparts
      obtain ⟨n, hn⟩ := (isOk_eq_true_iff _).1 (hparts p0 (by simp))
      obtain ⟨ms, hms, hfa⟩ := ih (acc ++ [⟨n, n⟩]) hrest
      refine ⟨⟨n, n⟩ :: ms, ?_, List.Forall₂.cons (Or.inl ⟨p0, hsp, hn, rfl⟩) hfa⟩
      simp [parsePortMappings.loop, hsp, hn, hms]
    | [p0, p1] =>
      rw [hsp] at hparts
      obtain ⟨n, hn⟩ := (isOk_eq_true_iff _).1 (hparts p0 (by simp))
      obtain ⟨k, hk⟩ := (isOk_eq_true_iff _).1 (hparts p1 (by simp))
      obtain ⟨ms, hms, hfa⟩ := ih (acc ++ [⟨n, k⟩]) hrest
      refine ⟨⟨n, k⟩ :: ms, ?_, List.Forall₂.cons (Or.inr ⟨p0, p1, hsp, hn, hk⟩) hfa⟩
      simp [parsePortMappings.loop, hsp, hn, hk, hms]
    | _ :: _ :: _ :: _ =>
      rw [hsp] at hlen
      simp at hlen

theorem wellFormed_or_malformed (seg : String) :
    WellFormedSegment seg ∨ MalformedSegment seg := by
  unfold WellFormedSegment MalformedSegment
  by_cases hall : ∀ p ∈ Split seg ':', (Atoi p).isOk = true
  · match hsp : Split seg ':' with
    | [] => exact absurd hsp (Split_ne_nil _ _)
    | [p0] => left; rw [hsp] at hall; exact ⟨by simp, hall⟩
    | [p0, p1] => left; rw [hsp] at hall; exact ⟨by simp, hall⟩
    | _ :: _ :: _ :: _ => right; left; simp
  · right; right
    push_neg at hall
    obtain ⟨p, hp, hne⟩ := hall
    exact ⟨p, hp, by simpa using hne⟩

theorem parsePortMappings_loop_malformed (segs : List String) :
    ∀ acc : List PortMapping, (∃ seg ∈ segs, MalformedSegment seg) →
      ∃ e, parsePortMappings.loop acc segs = .error e := by
  induction segs with
  | nil => intro acc h; obtain ⟨_, hm, _⟩ := h; cases hm
  | cons v rest ih =>
    intro acc h
    have key : MalformedSegment v ∨ ∃ seg ∈ rest, MalformedSegment seg := by
      obtain ⟨seg, hm, hbad⟩ := h
      rcases List.mem_cons.1 hm with rfl | hm
      · exact Or.inl hbad
      · exact Or.inr ⟨seg, hm, hbad⟩
    unfold parsePortMappings.loop
    match hsp : Split v ':' with
    | [] => exact absurd hsp (Split_ne_nil _ _)
    | [p0] =>
      cases h0 : Atoi p0 with
      | error e => exact ⟨e, by simp [h0]⟩
      | ok n =>
        rcases key with hv | hr
        · rcases hv with hv | ⟨p, hp, hne⟩
          · rw [hsp] at hv; simp at hv
          · rw [hsp] at hp
            simp at hp
            subst hp
            rw [h0] at hne
            cases hne
        · simpa [h0] using ih _ hr
    | [p0, p1] =>
      cases h0 : Atoi p0 with
      | error e => exact ⟨e, by simp [h0]⟩
      | ok n =>
        cases h1 : Atoi p1 with
        | error e => exact ⟨e, by simp [h0, h1]⟩
        | ok k =>
          rcases key with hv | hr
          · rcases hv with hv | ⟨p, hp, hne⟩
            · rw [hsp] at hv; simp at hv
            · rw [hsp] at hp
              simp at hp
              rcases hp with rfl | rfl
              · rw [h0] at hne; cases hne
              · rw [h1] at hne; cases hne
          · simpa [h0, h1] using ih _ hr
    | _ :: _ :: _ :: _ => exact ⟨_, rfl⟩

/-- C1: on a text whose comma-separated segments are all well formed (one or two
colon-separated parts, each parsing as an integer) `parsePortMappings` succeeds with
exactly one mapping per segment, in the order of the segments, the mapping of a
segment having the first part as local port and the second part, or the local port
when there is none, as remote port. In particular `"80"` gives `[(80,80)]`,
`"80:8080"` gives `[(80,8080)]` and `"80:8080,443:8443"` gives
`[(80,8080),(443,8443)]`. -/
theorem parsePortMappings_wellFormed (s : String)
    (h : ∀ seg ∈ Split s ',', WellFormedSegment seg) :
    (∃ ms, parsePortMappings s = .ok ms ∧ ms.length = (Split s ',').length ∧
      List.Forall₂ SegmentDenotes (Split s ',') ms) ∧
    parsePortMappings "80" = .ok [⟨80, 80⟩] ∧
    parsePortMappings "80:8080" = .ok [⟨80, 8080⟩] ∧
    parsePortMappings "80:8080,443:8443" = .ok [⟨80, 8080⟩, ⟨443, 8443⟩] := by
  refine ⟨?_, by decide, by decide, by decide⟩
  obtain ⟨ms, hms, hfa⟩ := parsePortMappings_loop_wellFormed (Split s ',') [] h
  exact ⟨ms, by simpa [parsePortMappings] using hms, hfa.length_eq.symm, hfa⟩

/-- Witness of C1 at the text `"80:8080,443"`. -/
theorem parsePortMappings_wellFormed_witness :
    (∀ seg ∈ Split "80:8080,443" ',', WellFormedSegment seg) ∧
    ((∃ ms, parsePortMappings "80:8080,443" = .ok ms ∧
        ms.length = (Split "80:8080,443" ',').length ∧
        List.Forall₂ SegmentDenotes (Split "80:8080,443" ',') ms) ∧
      parsePortMappings "80" = .ok [⟨80, 80⟩] ∧
      parsePortMappings "80:8080" = .ok [⟨80, 8080⟩] ∧
      parsePortMappings "80:8080,443:8443" = .ok [⟨80, 8080⟩, ⟨443, 8443⟩]) :=
  ⟨by decide, parsePortMappings_wellFormed "80:8080,443" (by decide)⟩

/-- C2: `parsePortMappings` returns an error if and only if some comma-separated
segment has three or more colon-separated parts or a part that does not parse as an
integer; on an error no mapping list is returned; `"80:8080:x"` and the empty text
are rejected. -/
theorem parsePortMappings_error_iff (s : String) :
    ((∃ e, parsePortMappings s = .error e) ↔ ∃ seg ∈ Split s ',', MalformedSegment seg) ∧
    ((∃ e, parsePortMappings s = .error e) → (parsePortMappings s).toOption = none) ∧
    parsePortMappings "80:8080:x" =
      .error (.errorf "Error parsing port mapping: 80:8080:x") ∧
    parsePortMappings "" = .error (.numError "Atoi" "" .ErrSyntax) := by
  refine ⟨⟨?_, ?_⟩, ?_, by decide, by decide⟩
  · rintro ⟨e, he⟩
    by_contra hno
    push_neg at hno
    have hall : ∀ seg ∈ Split s ',', WellFormedSegment seg := fun seg hs =>
      (wellFormed_or_malformed seg).resolve_right (hno seg hs)
    obtain ⟨ms, hms, _⟩ := parsePortMappings_loop_wellFormed (Split s ',') [] hall
    rw [parsePortMappings, hms] at he
    cases he
  · exact parsePortMappings_loop_malformed (Split s ',') []
  · rintro ⟨e, he⟩
    rw [he]
    rfl

/-! ## `insertOrReplacePortMapping` -/

theorem insertOrReplacePortMapping_loop_none (labelSelectorMap : LabelMap)
    (portMappings : List PortMapping) (rules : List PortForwardingConfig)
    (h : ∀ v ∈ rules, areLabelMapsEqual (effectiveSelectors v) labelSelectorMap = false) :
    insertOrReplacePortMapping.loop labelSelectorMap portMappings rules = none := by
  induction rules with
  | nil => rfl
  | cons v rest ih =>
    have hv := h v (List.mem_cons_self _ _)
    have hrest := ih (fun w hw => h w (List.mem_cons_of_mem _ hw))
    simp [insertOrReplacePortMapping.loop, hv, hrest]

theorem insertOrReplacePortMapping_loop_some (labelSelectorMap : LabelMap)
    (portMappings : List PortMapping) (rules : List PortForwardingConfig)
    (h : ∃ v ∈ rules, areLabelMapsEqual (effectiveSelectors v) labelSelectorMap = true) :
    ∃ before v after, rules = before ++ v :: after ∧
      (∀ w ∈ before, areLabelMapsEqual (effectiveSelectors w) labelSelectorMap = false) ∧
      areLabelMapsEqual (effectiveSelectors v) labelSelectorMap = true ∧
      insertOrReplacePortMapping.loop labelSelectorMap portMappings rules =
        some (before ++ { v with PortMappings := v.PortMappings ++ portMappings } :: after) := by
  induction rules with
  | nil => obtain ⟨_, hm, _⟩ := h; cases hm
  | cons u rest ih =>
    by_cases hu : areLabelMapsEqual (effectiveSelectors u) labelSelectorMap = true
    · exact ⟨[], u, rest, rfl, by simp, hu, by simp [insertOrReplacePortMapping.loop, hu]⟩
    · have hrest : ∃ v ∈ rest,
          areLabelMapsEqual (effectiveSelectors v) labelSelectorMap = true := by
        obtain ⟨v, hm, hv⟩ := h
        rcases List.mem_cons.1 hm with rfl | hm
        · exact absurd hv hu
        · exact ⟨v, hm, hv⟩
      obtain ⟨before, v, after, heq, hbefore, hv, hloop⟩ := ih hrest
      refine ⟨u :: before, v, after, by simp [heq], ?_, hv, ?_⟩
      · intro w hw
        rcases List.mem_cons.1 hw with rfl | hw
        · simpa using hu
        · exact hbefore w hw
      · simp [insertOrReplacePortMapping.loop, hu, hloop]

theorem rules_of_dev (config : Config) (dev : DevConfig) (hdev : config.Dev = some dev) :
    config.rules = (match dev.Ports with | none => [] | some ps => ps) := by
  simp [Config.rules, hdev]

/-- C3: merge case of `insertOrReplacePortMapping`. When some rule has an effective
selector set equal to the target selector set, the rules split as
`before ++ v :: after` with `v` the first such rule, and the call returns the config
in which only the mapping list of `v` changed, to its old mappings followed by the
new ones: number and order of the rules, the namespace, service reference and
selector of `v`, and every other rule (also a later matching one) are unchanged,
whatever namespace and service name the caller passed. -/
theorem insertOrReplacePortMapping_merge (config : Config) (dev : DevConfig)
    (nspace : String) (labelSelectorMap : LabelMap) (serviceName : String)
    (portMappings : List PortMapping) (hdev : config.Dev = some dev)
    (h : ∃ v ∈ config.rules,
      areLabelMapsEqual (effectiveSelectors v) labelSelectorMap = true) :
    ∃ before v after, config.rules = before ++ v :: after ∧
      (∀ w ∈ before, areLabelMapsEqual (effectiveSelectors w) labelSelectorMap = false) ∧
      areLabelMapsEqual (effectiveSelectors v) labelSelectorMap = true ∧
      insertOrReplacePortMapping config nspace labelSelectorMap serviceName portMappings =
        some { config with Dev := some { dev with Ports := some (before ++
          { Namespace := v.Namespace, Selector := v.Selector,
            LabelSelector := v.LabelSelector,
            PortMappings := v.PortMappings ++ portMappings } :: after) } } := by
  obtain ⟨before, v, after, heq, hbefore, hv, hloop⟩ :=
    insertOrReplacePortMapping_loop_some labelSelectorMap portMappings config.rules h
  refine ⟨before, v, after, heq, hbefore, hv, ?_⟩
  rw [rules_of_dev config dev hdev] at hloop
  simp only [insertOrReplacePortMapping, hdev, hloop]

/-- Witness of C3: of the rules `ruleB, ruleA, ruleA2` the target `{app=a}` matches
the second and the third. -/
theorem insertOrReplacePortMapping_merge_witness :
    ∃ before v after,
      (configWith [ruleB, ruleA, ruleA2]).rules = before ++ v :: after ∧
      (∀ w ∈ before,
        areLabelMapsEqual (effectiveSelectors w) (some [("app", "a")]) = false) ∧
      areLabelMapsEqual (effectiveSelectors v) (some [("app", "a")]) = true ∧
      insertOrReplacePortMapping (configWith [ruleB, ruleA, ruleA2]) "other"
          (some [("app", "a")]) "svc" [⟨81, 82⟩] =
        some { configWith [ruleB, ruleA, ruleA2] with
          Dev := some { ({ Selectors := none, Ports := some [ruleB, ruleA, ruleA2] } : DevConfig)
            with Ports := some (before ++
              { Namespace := v.Namespace, Selector := v.Selector,
                LabelSelector := v.LabelSelector,
                PortMappings := v.PortMappings ++ [⟨81, 82⟩] } :: after) } } :=
  insertOrReplacePortMapping_merge (configWith [ruleB, ruleA, ruleA2])
    { Selectors := none, Ports := some [ruleB, ruleA, ruleA2] } "other"
    (some [("app", "a")]) "svc" [⟨81, 82⟩] rfl ⟨ruleA, by decide, by decide⟩

/-- The new-rule case of `insertOrReplacePortMapping`, for a config with a `Dev`
section. -/
theorem insertOrReplacePortMapping_new_rule (config : Config) (dev : DevConfig)
    (nspace : String) (labelSelectorMap : LabelMap) (serviceName : String)
    (portMappings : List PortMapping) (hdev : config.Dev = some dev)
    (h : ∀ v ∈ config.rules,
      areLabelMapsEqual (effectiveSelectors v) labelSelectorMap = false) :
    insertOrReplacePortMapping config nspace labelSelectorMap serviceName portMappings =
      some { config with Dev := some { dev with Ports := some (config.rules ++
        [{ Namespace := some nspace, Selector := some serviceName,
           LabelSelector := some (if serviceName ≠ "" then none else labelSelectorMap),
           PortMappings := portMappings }]) } } := by
  have hloop := insertOrReplacePortMapping_loop_none labelSelectorMap portMappings
    config.rules h
  rw [rules_of_dev config dev hdev] at hloop ⊢
  simp only [insertOrReplacePortMapping, hdev, hloop]

/-- C4: new-rule case of `insertOrReplacePortMapping`. When no rule has an effective
selector set equal to the target selector set, the call returns the config whose
rules are the old rules, unchanged and in the same order, followed by one new rule
with the given namespace, the given service name as service reference, the new
mappings, and as selector the nil map when the service name is not empty and the
target selector set otherwise. -/
theorem insertOrReplacePortMapping_new (config : Config) (dev : DevConfig)
    (nspace : String) (labelSelectorMap : LabelMap) (serviceName : String)
    (portMappings : List PortMapping) (hdev : config.Dev = some dev)
    (h : ∀ v ∈ config.rules,
      areLabelMapsEqual (effectiveSelectors v) labelSelectorMap = false) :
    insertOrReplacePortMapping config nspace labelSelectorMap serviceName portMappings =
      some { config with Dev := some { dev with Ports := some (config.rules ++
        [{ Namespace := some nspace, Selector := some serviceName,
           LabelSelector := some (if serviceName ≠ "" then none else labelSelectorMap),
           PortMappings := portMappings }]) } } :=
  insertOrReplacePortMapping_new_rule config dev nspace labelSelectorMap serviceName
    portMappings hdev h

/-- Witness of C4: the rule `ruleB` and the target `{app=a}` with a service name. -/
theorem insertOrReplacePortMapping_new_witness :
    insertOrReplacePortMapping (configWith [ruleB]) "dev" (some [("app", "a")]) "svc"
        [⟨81, 82⟩] =
      some { configWith [ruleB] with
        Dev := some { ({ Selectors := none, Ports := some [ruleB] } : DevConfig) with
          Ports := some ((configWith [ruleB]).rules ++
            [{ Namespace := some "dev", Selector := some "svc",
               LabelSelector := some (if "svc" ≠ "" then none else some [("app", "a")]),
               PortMappings := [⟨81, 82⟩] }]) } } :=
  insertOrReplacePortMapping_new (configWith [ruleB])
    { Selectors := none, Ports := some [ruleB] } "dev" (some [("app", "a")]) "svc"
    [⟨81, 82⟩] rfl (by decide)

/-! ## `AddPort` called twice -/

theorem areLabelMapsEqual_refl (m : LabelMap) : areLabelMapsEqual m m = true := by
  simp [areLabelMapsEqual]

theorem areLabelMapsEqual_nil_of_len (m : LabelMap) (h : m.len = 0) :
    areLabelMapsEqual none m = true := by
  have hm : m.entries = [] := List.length_eq_zero.1 h
  simp [areLabelMapsEqual, LabelMap.len, LabelMap.entries, hm] at *
  simp [hm]

theorem insertOrReplacePortMapping_loop_append (labelSelectorMap : LabelMap)
    (portMappings : List PortMapping) (v : PortForwardingConfig)
    (after : List PortForwardingConfig)
    (hv : areLabelMapsEqual (effectiveSelectors v) labelSelectorMap = true) :
    ∀ before : List PortForwardingConfig,
      (∀ w ∈ before, areLabelMapsEqual (effectiveSelectors w) labelSelectorMap = false) →
      insertOrReplacePortMapping.loop labelSelectorMap portMappings (before ++ v :: after) =
        some (before ++ { v with PortMappings := v.PortMappings ++ portMappings } :: after) := by
  intro before
  induction before with
  | nil => intro _; simp [insertOrReplacePortMapping.loop, hv]
  | cons u rest ih =>
    intro h
    have hu := h u (List.mem_cons_self _ _)
    have hrest := ih (fun w hw => h w (List.mem_cons_of_mem _ hw))
    simp [insertOrReplacePortMapping.loop, hu, hrest]

theorem target_congr (c1 c2 : Config) (labelSelector serviceName : String)
    (hd : c2.Deployments = c1.Deployments)
    (hs : configuredSelectors c2 = configuredSelectors c1) :
    AddPort.target c2 labelSelector serviceName =
      AddPort.target c1 labelSelector serviceName := by
  simp only [AddPort.target, AddPort.resolve, hs, GetNameOfFirstHelmDeployment, hd]

/-- C5, as amended: two calls of `AddPort` with the same selector arguments, which
resolve to the target selector set `target`, and well-formed port arguments `p1`,
`p2`, starting from a config in which no rule has an effective selector set equal to
`target`, leave the old rules followed by exactly one new rule whose mappings are
those of `p1` followed by those of `p2`, provided the service name is empty (the
selector is given as text, is the one of the first configured entry, or is the
release selector used by default) or the target selector set is empty. -/
theorem addPort_twice (save1 save2 : Config → Option Error) (s : State) (dev : DevConfig)
    (nspace1 nspace2 labelSelector serviceName p1 p2 : String) (args1 args2 : List String)
    (target : LabelMap) (ms1 ms2 : List PortMapping)
    (hdev : s.config.Dev = some dev)
    (hboth : ¬ (labelSelector ≠ "" ∧ serviceName ≠ ""))
    (ht : AddPort.target s.config labelSelector serviceName = some (.ok target))
    (hsvc : serviceName = "" ∨ target.len = 0)
    (hp1 : parsePortMappings p1 = .ok ms1) (hp2 : parsePortMappings p2 = .ok ms2)
    (hnew : ∀ v ∈ s.config.rules,
      areLabelMapsEqual (effectiveSelectors v) target = false) :
    ∃ s1 e1 s2 e2,
      AddPort save1 s nspace1 labelSelector serviceName (p1 :: args1) = some (s1, e1) ∧
      AddPort save2 s1 nspace2 labelSelector serviceName (p2 :: args2) = some (s2, e2) ∧
      s2.config.rules = s.config.rules ++
        [{ Namespace := some nspace1, Selector := some serviceName,
           LabelSelector := some (if serviceName ≠ "" then none else target),
           PortMappings := ms1 ++ ms2 }] := by
  -- the first call appends a new rule
  have hins1 := insertOrReplacePortMapping_new_rule s.config dev nspace1 target serviceName
    ms1 hdev hnew
  generalize hc1 : ({ s.config with Dev := some { dev with Ports := some (s.config.rules ++
        [{ Namespace := some nspace1, Selector := some serviceName,
           LabelSelector := some (if serviceName ≠ "" then none else target),
           PortMappings := ms1 }]) } } : Config) = c1 at hins1
  have hc1dev : c1.Dev = some { dev with Ports := some (s.config.rules ++
        [{ Namespace := some nspace1, Selector := some serviceName,
           LabelSelector := some (if serviceName ≠ "" then none else target),
           PortMappings := ms1 }]) } := by rw [← hc1]
  have hcall1 : AddPort save1 s nspace1 labelSelector serviceName (p1 :: args1) =
      some (⟨c1, s.saveCalls ++ [c1]⟩,
        match save1 c1 with
        | some err => some (.wrapf "Couldn't save config file: " err)
        | none => none) := by
    simp only [AddPort, hboth, if_false, ht, hp1, hins1, SaveLoadedConfig]
    cases save1 c1 <;> rfl
  -- the second call finds the same target and merges into the new rule
  have ht2 : AddPort.target c1 labelSelector serviceName = some (.ok target) := by
    rw [← ht]
    apply target_congr
    · rw [← hc1]
    · simp [configuredSelectors, hc1dev, hdev]
  have hmatch : areLabelMapsEqual (effectiveSelectors
      { Namespace := some nspace1, Selector := some serviceName,
        LabelSelector := some (if serviceName ≠ "" then none else target),
        PortMappings := ms1 }) target = true := by
    rcases hsvc with hs | hl
    · simp [effectiveSelectors, hs, areLabelMapsEqual_refl]
    · by_cases hs : serviceName = ""
      · simp [effectiveSelectors, hs, areLabelMapsEqual_refl]
      · simp [effectiveSelectors, hs, areLabelMapsEqual_nil_of_len target hl]
  have hloop2 := insertOrReplacePortMapping_loop_append target ms2 _ [] hmatch
    s.config.rules hnew
  have hins2 : insertOrReplacePortMapping c1 nspace2 target serviceName ms2 =
      some { c1 with Dev := some { dev with Ports := some (s.config.rules ++
        [{ Namespace := some nspace1, Selector := some serviceName,
           LabelSelector := some (if serviceName ≠ "" then none else target),
           PortMappings := ms1 ++ ms2 }]) } } := by
    simp only [insertOrReplacePortMapping, hc1dev, hloop2]
  generalize hc2 : ({ c1 with Dev := some { dev with Ports := some (s.config.rules ++
        [{ Namespace := some nspace1, Selector := some serviceName,
           LabelSelector := some (if serviceName ≠ "" then none else target),
           PortMappings := ms1 ++ ms2 }]) } } : Config) = c2 at hins2
  have hcall2 : AddPort save2 ⟨c1, s.saveCalls ++ [c1]⟩ nspace2 labelSelector serviceName
      (p2 :: args2) =
      some (⟨c2, s.saveCalls ++ [c1] ++ [c2]⟩,
        match save2 c2 with
        | some err => some (.wrapf "Couldn't save config file: " err)
        | none => none) := by
    simp only [AddPort, hboth, if_false, ht2, hp2, hins2, SaveLoadedConfig]
    cases save2 c2 <;> rfl
  refine ⟨_, _, _, _, hcall1, hcall2, ?_⟩
  rw [← hc2]
  simp [Config.rules]

/-- Witness of C5 as amended: the selector text `app=a` on a config whose only rule
selects `{app=b}`, with the port arguments `"80"` and `"90:91"`. -/
theorem addPort_twice_witness :
    ∃ s1 e1 s2 e2,
      AddPort (fun _ => none) ⟨configWith [ruleB], []⟩ "dev" "app=a" "" ["80"] =
        some (s1, e1) ∧
      AddPort (fun _ => none) s1 "other" "app=a" "" ["90:91"] = some (s2, e2) ∧
      s2.config.rules = (configWith [ruleB]).rules ++
        [{ Namespace := some "dev", Selector := some "",
           LabelSelector := some (if "" ≠ "" then none else some [("app", "a")]),
           PortMappings := [⟨80, 80⟩] ++ [⟨90, 91⟩] }] :=
  addPort_twice (fun _ => none) (fun _ => none) ⟨configWith [ruleB], []⟩
    { Selectors := none, Ports := some [ruleB] } "dev" "other" "app=a" "" "80" "90:91" [] []
    (some [("app", "a")]) [⟨80, 80⟩] [⟨90, 91⟩] rfl (by decide) (by decide) (by decide)
    (by decide) (by decide) (by decide)

/-- Counterexample to C5: two calls of `AddPort` with the service name `svc`, which
resolves to `{app=a}`, on a config without rules, give two rules with one mapping
each and not one rule with both mappings. -/
theorem addPort_twice_service_counterexample :
    AddPort.target serviceConfig "" "svc" = some (.ok (some [("app", "a")])) ∧
    serviceConfig.rules = [] ∧
    parsePortMappings "80" = .ok [⟨80, 80⟩] ∧
    parsePortMappings "90" = .ok [⟨90, 90⟩] ∧
    ((AddPort (fun _ => none) ⟨serviceConfig, []⟩ "dev" "" "svc" ["80"]).bind
        (fun r => AddPort (fun _ => none) r.1 "dev" "" "svc" ["90"])).map
      (fun r => r.1.config.rules) =
      some [{ Namespace := some "dev", Selector := some "svc", LabelSelector := some none,
              PortMappings := [⟨80, 80⟩] },
            { Namespace := some "dev", Selector := some "svc", LabelSelector := some none,
              PortMappings := [⟨90, 90⟩] }] := by
  decide

/-! ## `RemovePort` -/

theorem containsPort_iff (port : String) (ports : List String) :
    containsPort port ports = true ↔ ∃ v ∈ ports, TrimSpace v = port := by
  induction ports with
  | nil => simp [containsPort]
  | cons v rest ih =>
    unfold containsPort
    by_cases hv : TrimSpace v = port
    · simp [hv]
    · simp [hv, ih]

theorem filterMappings_eq (ports : List String) (ms : List PortMapping) :
    ∀ acc : List PortMapping, RemovePort.filterMappings ports acc ms =
      acc ++ ms.filter (fun pm =>
        !(containsPort (Itoa pm.LocalPort) ports || containsPort (Itoa pm.RemotePort) ports)) := by
  induction ms with
  | nil => intro acc; simp [RemovePort.filterMappings]
  | cons pm rest ih =>
    intro acc
    unfold RemovePort.filterMappings
    cases h : (containsPort (Itoa pm.LocalPort) ports ||
        containsPort (Itoa pm.RemotePort) ports)
    · rw [if_neg (by simp), ih, List.filter_cons_of_pos (by rw [h]; rfl)]
      simp
    · rw [if_pos rfl, ih, List.filter_cons_of_neg (by rw [h]; simp)]

theorem filterMappings_eq_surviving (portsText : String) (v : PortForwardingConfig) :
    RemovePort.filterMappings (Split portsText ',') [] v.PortMappings =
      survivingMappings portsText v := by
  rw [filterMappings_eq, survivingMappings, List.nil_append]
  apply List.filter_congr
  intro pm _
  by_cases h1 : containsPort (Itoa pm.LocalPort) (Split portsText ',') = true <;>
  by_cases h2 : containsPort (Itoa pm.RemotePort) (Split portsText ',') = true <;>
  simp [portListed, ← containsPort_iff, h1, h2]

theorem RemovePort_loop_true (ports : List String) (rules : List PortForwardingConfig) :
    ∀ acc : List PortForwardingConfig, RemovePort.loop true ports acc rules = acc := by
  induction rules with
  | nil => intro acc; rfl
  | cons v rest ih => intro acc; simp [RemovePort.loop, ih]

theorem RemovePort_loop_false (portsText : String) (rules : List PortForwardingConfig) :
    ∀ acc : List PortForwardingConfig,
      RemovePort.loop false (Split portsText ',') acc rules =
        acc ++ filteredRules portsText rules := by
  induction rules with
  | nil => intro acc; simp [RemovePort.loop, filteredRules]
  | cons v rest ih =>
    intro acc
    unfold RemovePort.loop
    simp only [filterMappings_eq_surviving, ih, Bool.false_eq_true, if_false]
    by_cases hs : survivingMappings portsText v = []
    · simp [filteredRules, List.filterMap_cons, hs]
    · have hpos : (survivingMappings portsText v).length > 0 :=
        List.length_pos.2 hs
      simp [filteredRules, List.filterMap_cons, hs, hpos]

theorem RemovePort_loop_eq (removeAll : Bool) (portsText : String)
    (rules : List PortForwardingConfig) :
    RemovePort.loop removeAll (Split portsText ',') [] rules =
      remainingRules removeAll portsText rules := by
  cases removeAll
  · simp [RemovePort_loop_false, remainingRules]
  · simp [RemovePort_loop_true, remainingRules]

/-- What `RemovePort` does once the selector text is accepted and the validation
of line 90 passes, on a config with a `Dev` section. -/
theorem RemovePort_eq (save : Config → Option Error) (s : State) (removeAll : Bool)
    (labelSelector : String) (args : List String) (m : LabelMap) (dev : DevConfig)
    (hsel : parseSelectors labelSelector = .ok m)
    (hvalid : ¬ (m.len = 0 ∧ removeAll = false ∧ argPorts args = ""))
    (hdev : s.config.Dev = some dev) :
    RemovePort save s removeAll labelSelector args =
      match dev.Ports with
      | some (v :: rest) =>
        some (⟨{ s.config with Dev := some { dev with
                  Ports := some (remainingRules removeAll (argPorts args) (v :: rest)) } },
               s.saveCalls ++ [{ s.config with Dev := some { dev with
                  Ports := some (remainingRules removeAll (argPorts args) (v :: rest)) } }]⟩,
          saveError (save { s.config with Dev := some { dev with
                  Ports := some (remainingRules removeAll (argPorts args) (v :: rest)) } }))
      | _ => some (s, none) := by
  unfold RemovePort
  simp only [hsel, hvalid, if_false, hdev]
  cases hp : dev.Ports with
  | none => rfl
  | some ps =>
    cases ps with
    | nil => rfl
    | cons v rest =>
      simp only [RemovePort_loop_eq, SaveLoadedConfig, saveError]
      cases save _ <;> rfl

theorem RemovePort_rules (save : Config → Option Error) (s : State) (removeAll : Bool)
    (labelSelector : String) (args : List String) (m : LabelMap) (dev : DevConfig)
    (hsel : parseSelectors labelSelector = .ok m)
    (hvalid : ¬ (m.len = 0 ∧ removeAll = false ∧ argPorts args = ""))
    (hdev : s.config.Dev = some dev) :
    ∃ s1 e, RemovePort save s removeAll labelSelector args = some (s1, e) ∧
      (s.config.rules ≠ [] →
        s1.config.rules = remainingRules removeAll (argPorts args) s.config.rules) ∧
      (s.config.rules = [] → s1 = s) := by
  rw [RemovePort_eq save s removeAll labelSelector args m dev hsel hvalid hdev]
  cases hp : dev.Ports with
  | none => exact ⟨s, none, rfl, by simp [Config.rules, hdev, hp], fun _ => rfl⟩
  | some ps =>
    cases ps with
    | nil => exact ⟨s, none, rfl, by simp [Config.rules, hdev, hp], fun _ => rfl⟩
    | cons v rest =>
      exact ⟨_, _, rfl, by simp [Config.rules, hdev, hp], by simp [Config.rules, hdev, hp]⟩

/-! ## The properties of `RemovePort` and the validation of `AddPort` -/

/-- Counterexample to C7: with the selector text `app=b` and the ports text `"80"`
the rule `ruleA`, whose selector set `{app=a}` differs from `{app=b}`, loses its
mapping of port 80 and is dropped. -/
theorem removePort_selector_counterexample :
    parseSelectors "app=b" = .ok (some [("app", "b")]) ∧
    ruleA ∈ (configWith [ruleA, ruleB]).rules ∧
    areLabelMapsEqual (effectiveSelectors ruleA) (some [("app", "b")]) = false ∧
    (RemovePort (fun _ => none) ⟨configWith [ruleA, ruleB], []⟩ false "app=b" ["80"]).map
      (fun r => r.1.config.rules) = some [ruleB] ∧
    ruleA ∉ [ruleB] := by
  decide

/-- C7, as amended: with `removeAll = false`, a selector text that parses to a
non-empty selector set and a ports text, `RemovePort` does not consult the selector
set: it gives the same result for every other such selector text, and the resulting
rules are the port-filtered rules, the listed mappings being removed from every
rule whatever its selector set. -/
theorem removePort_ignores_selector (save : Config → Option Error) (s : State)
    (labelSelector other : String) (args : List String) (m m2 : LabelMap) (dev : DevConfig)
    (hsel : parseSelectors labelSelector = .ok m) (hne : m.len ≠ 0)
    (hsel2 : parseSelectors other = .ok m2) (hne2 : m2.len ≠ 0)
    (hdev : s.config.Dev = some dev) :
    RemovePort save s false labelSelector args = RemovePort save s false other args ∧
    ∃ s1 e, RemovePort save s false labelSelector args = some (s1, e) ∧
      s1.config.rules = filteredRules (argPorts args) s.config.rules := by
  have hv : ¬ (m.len = 0 ∧ false = false ∧ argPorts args = "") := fun h => hne h.1
  have hv2 : ¬ (m2.len = 0 ∧ false = false ∧ argPorts args = "") := fun h => hne2 h.1
  refine ⟨?_, ?_⟩
  · rw [RemovePort_eq save s false labelSelector args m dev hsel hv hdev,
      RemovePort_eq save s false other args m2 dev hsel2 hv2 hdev]
  · obtain ⟨s1, e, hcall, hrules, hnil⟩ := RemovePort_rules save s false labelSelector args
      m dev hsel hv hdev
    refine ⟨s1, e, hcall, ?_⟩
    by_cases hr : s.config.rules = []
    · rw [hnil hr, hr]; rfl
    · rw [hrules hr]; rfl

/-- Witness of C7 as amended: the selector texts `app=b` and `app=a`. -/
theorem removePort_ignores_selector_witness :
    RemovePort (fun _ => none) ⟨configWith [ruleA, ruleB], []⟩ false "app=b" ["80"] =
      RemovePort (fun _ => none) ⟨configWith [ruleA, ruleB], []⟩ false "app=a" ["80"] ∧
    ∃ s1 e, RemovePort (fun _ => none) ⟨configWith [ruleA, ruleB], []⟩ false "app=b" ["80"] =
        some (s1, e) ∧
      s1.config.rules = filteredRules (argPorts ["80"]) (configWith [ruleA, ruleB]).rules :=
  removePort_ignores_selector (fun _ => none) ⟨configWith [ruleA, ruleB], []⟩ "app=b" "app=a"
    ["80"] (some [("app", "b")]) (some [("app", "a")])
    { Selectors := none, Ports := some [ruleA, ruleB] } (by decide) (by decide) (by decide)
    (by decide) rfl

/-- C8: `RemovePort` with `removeAll = true` on a config whose rule sequence is not
empty, with any arguments and any selector text that parses: the call returns and
the resulting rule sequence is empty. -/
theorem removePort_removeAll (save : Config → Option Error) (s : State)
    (labelSelector : String) (args : List String) (m : LabelMap)
    (hsel : parseSelectors labelSelector = .ok m) (hne : s.config.rules ≠ []) :
    ∃ s1 e, RemovePort save s true labelSelector args = some (s1, e) ∧
      s1.config.rules = [] := by
  cases hdev : s.config.Dev with
  | none => simp [Config.rules, hdev] at hne
  | some dev =>
    obtain ⟨s1, e, hcall, hrules, _⟩ := RemovePort_rules save s true labelSelector args
      m dev hsel (by simp) hdev
    exact ⟨s1, e, hcall, by rw [hrules hne]; rfl⟩

/-- Witness of C8: the rules `ruleA`, `ruleB`, a selector and a port that match
nothing. -/
theorem removePort_removeAll_witness :
    ∃ s1 e, RemovePort (fun _ => none) ⟨configWith [ruleA, ruleB], []⟩ true "app=c" ["77"] =
        some (s1, e) ∧
      s1.config.rules = [] :=
  removePort_removeAll (fun _ => none) ⟨configWith [ruleA, ruleB], []⟩ "app=c" ["77"]
    (some [("app", "c")]) (by decide) (by decide)

/-- C9: when both the label selector and the service name are given, `AddPort`
returns the error of line 32 and leaves the state of the config store, that is the
config and the log of save calls, as it was, whatever the config, the namespace, the
arguments, the selector text and the port text are. -/
theorem addPort_rejects_both (save : Config → Option Error) (s : State)
    (nspace labelSelector serviceName : String) (args : List String)
    (hl : labelSelector ≠ "") (hs : serviceName ≠ "") :
    AddPort save s nspace labelSelector serviceName args = some (s, some bothSpecified) := by
  simp [AddPort, hl, hs]

/-- Witness of C9: a selector text and a port text that are both malformed. -/
theorem addPort_rejects_both_witness :
    AddPort (fun _ => none) ⟨configWith [ruleA], []⟩ "dev" "app" "svc" ["80:81:82"] =
      some (⟨configWith [ruleA], []⟩, some bothSpecified) :=
  addPort_rejects_both (fun _ => none) ⟨configWith [ruleA], []⟩ "dev" "app" "svc"
    ["80:81:82"] (by decide) (by decide)

/-- C10: for a selector text that parses, `RemovePort` returns the error "You have to
specify at least one of the supported flags", with the config unchanged and without
a save, when the selector set is empty, `removeAll` is false and the ports text is
empty; and it does not return this error when one of the three is specified. -/
theorem removePort_requires_flag (save : Config → Option Error) (s : State)
    (removeAll : Bool) (labelSelector : String) (args : List String) (m : LabelMap)
    (hsel : parseSelectors labelSelector = .ok m) :
    ((m.len = 0 ∧ removeAll = false ∧ argPorts args = "") →
      RemovePort save s removeAll labelSelector args = some (s, some nothingSpecified)) ∧
    (¬ (m.len = 0 ∧ removeAll = false ∧ argPorts args = "") →
      ∀ s1, RemovePort save s removeAll labelSelector args ≠
        some (s1, some nothingSpecified)) := by
  refine ⟨?_, ?_⟩
  · intro h
    simp only [RemovePort, hsel, h, and_self, if_true]
  · intro hvalid s1
    cases hdev : s.config.Dev with
    | none => simp [RemovePort, hsel, hvalid, hdev]
    | some dev =>
      rw [RemovePort_eq save s removeAll labelSelector args m dev hsel hvalid hdev]
      cases hp : dev.Ports with
      | none => simp
      | some ps =>
        cases ps with
        | nil => simp
        | cons v rest =>
          cases hsave : save { s.config with Dev := some { dev with
              Ports := some (remainingRules removeAll (argPorts args) (v :: rest)) } } <;>
            simp [saveError, hsave, nothingSpecified]

/-- Witness of C10: without any flag the call is rejected; with the selector text
`app=a` alone it is not. -/
theorem removePort_requires_flag_witness :
    RemovePort (fun _ => none) ⟨configWith [ruleA], []⟩ false "" [] =
      some (⟨configWith [ruleA], []⟩, some nothingSpecified) ∧
    ∀ s1, RemovePort (fun _ => none) ⟨configWith [ruleA], []⟩ false "app=a" [] ≠
      some (s1, some nothingSpecified) :=
  ⟨(removePort_requires_flag (fun _ => none) ⟨configWith [ruleA], []⟩ false "" []
      (some []) (by decide)).1 (by decide),
   (removePort_requires_flag (fun _ => none) ⟨configWith [ruleA], []⟩ false "app=a" []
      (some [("app", "a")]) (by decide)).2 (by decide)⟩

/-! ## What `insertOrReplacePortMapping` and `AddPort` do to the rules -/

/-- The two outcomes of `insertOrReplacePortMapping` on a config with a `Dev`
section: a merge into the first matching rule, or a new rule at the end. -/
theorem insertOrReplacePortMapping_cases (config : Config) (dev : DevConfig)
    (nspace : String) (labelSelectorMap : LabelMap) (serviceName : String)
    (portMappings : List PortMapping) (hdev : config.Dev = some dev) :
    ∃ config1,
      insertOrReplacePortMapping config nspace labelSelectorMap serviceName portMappings =
        some config1 ∧
      ((∃ before v after, config.rules = before ++ v :: after ∧
          (∀ w ∈ before,
            areLabelMapsEqual (effectiveSelectors w) labelSelectorMap = false) ∧
          areLabelMapsEqual (effectiveSelectors v) labelSelectorMap = true ∧
          config1.rules = before ++
            { v with PortMappings := v.PortMappings ++ portMappings } :: after) ∨
       ((∀ v ∈ config.rules,
          areLabelMapsEqual (effectiveSelectors v) labelSelectorMap = false) ∧
        config1.rules = config.rules ++
          [{ Namespace := some nspace, Selector := some serviceName,
             LabelSelector := some (if serviceName ≠ "" then none else labelSelectorMap),
             PortMappings := portMappings }])) := by
  by_cases h : ∃ v ∈ config.rules,
      areLabelMapsEqual (effectiveSelectors v) labelSelectorMap = true
  · obtain ⟨before, v, after, heq, hbefore, hv, hloop⟩ :=
      insertOrReplacePortMapping_loop_some labelSelectorMap portMappings config.rules h
    rw [rules_of_dev config dev hdev] at hloop
    refine ⟨_, by simp only [insertOrReplacePortMapping, hdev, hloop]; rfl, Or.inl
      ⟨before, v, after, heq, hbefore, hv, ?_⟩⟩
    simp [Config.rules]
  · have hno : ∀ v ∈ config.rules,
        areLabelMapsEqual (effectiveSelectors v) labelSelectorMap = false := by
      intro v hv
      cases hm : areLabelMapsEqual (effectiveSelectors v) labelSelectorMap
      · rfl
      · exact absurd ⟨v, hv, hm⟩ h
    refine ⟨_, insertOrReplacePortMapping_new_rule config dev nspace labelSelectorMap
      serviceName portMappings hdev hno, Or.inr ⟨hno, ?_⟩⟩
    simp [Config.rules]

/-- How `AddPort` runs when the validation, the resolution of the target selector,
the parsing of the port mappings and the insertion go through. -/
theorem AddPort_eq (save : Config → Option Error) (s : State)
    (nspace labelSelector serviceName arg0 : String) (rest : List String)
    (target : LabelMap) (ms : List PortMapping) (config1 : Config)
    (hboth : ¬ (labelSelector ≠ "" ∧ serviceName ≠ ""))
    (ht : AddPort.target s.config labelSelector serviceName = some (.ok target))
    (hp : parsePortMappings arg0 = .ok ms)
    (hins : insertOrReplacePortMapping s.config nspace target serviceName ms = some config1) :
    AddPort save s nspace labelSelector serviceName (arg0 :: rest) =
      some (⟨config1, s.saveCalls ++ [config1]⟩, saveError (save config1)) := by
  simp only [AddPort, hboth, if_false, ht, hp, hins, SaveLoadedConfig, saveError]
  cases save config1 <;> rfl

/-- Every return of `AddPort` is an error return with the state untouched, or the
return after an insertion and a save call. -/
theorem AddPort_cases (save : Config → Option Error) (s s1 : State)
    (nspace labelSelector serviceName : String) (args : List String) (e : Option Error)
    (hcall : AddPort save s nspace labelSelector serviceName args = some (s1, e)) :
    (s1 = s ∧ e ≠ none) ∨
    ∃ target arg0 rest ms config1,
      ¬ (labelSelector ≠ "" ∧ serviceName ≠ "") ∧
      AddPort.target s.config labelSelector serviceName = some (.ok target) ∧
      args = arg0 :: rest ∧ parsePortMappings arg0 = .ok ms ∧
      insertOrReplacePortMapping s.config nspace target serviceName ms = some config1 ∧
      s1 = ⟨config1, s.saveCalls ++ [config1]⟩ ∧ e = saveError (save config1) := by
  by_cases hboth : labelSelector ≠ "" ∧ serviceName ≠ ""
  · rw [AddPort, if_pos hboth] at hcall
    simp only [Option.some.injEq, Prod.mk.injEq] at hcall
    exact Or.inl ⟨hcall.1.symm, by rw [← hcall.2]; simp⟩
  · cases ht : AddPort.target s.config labelSelector serviceName with
    | none => simp [AddPort, hboth, ht] at hcall
    | some r =>
      cases r with
      | error err =>
        simp only [AddPort, hboth, if_false, ht, Option.some.injEq, Prod.mk.injEq] at hcall
        exact Or.inl ⟨hcall.1.symm, by rw [← hcall.2]; simp⟩
      | ok target =>
        cases args with
        | nil => simp [AddPort, hboth, ht] at hcall
        | cons arg0 rest =>
          cases hp : parsePortMappings arg0 with
          | error err =>
            simp only [AddPort, hboth, if_false, ht, hp, Option.some.injEq,
              Prod.mk.injEq] at hcall
            exact Or.inl ⟨hcall.1.symm, by rw [← hcall.2]; simp⟩
          | ok ms =>
            cases hins : insertOrReplacePortMapping s.config nspace target serviceName ms with
            | none => simp [AddPort, hboth, ht, hp, hins] at hcall
            | some config1 =>
              rw [AddPort_eq save s nspace labelSelector serviceName arg0 rest target ms
                config1 hboth ht hp hins] at hcall
              simp only [Option.some.injEq, Prod.mk.injEq] at hcall
              exact Or.inr ⟨target, arg0, rest, ms, config1, hboth, rfl, rfl, hp, hins,
                hcall.1.symm, hcall.2.symm⟩

theorem insertOrReplacePortMapping_keeps_exclusive (config config1 : Config)
    (nspace : String) (labelSelectorMap : LabelMap) (serviceName : String)
    (portMappings : List PortMapping)
    (hinv : ∀ v ∈ config.rules, MutuallyExclusive v)
    (hins : insertOrReplacePortMapping config nspace labelSelectorMap serviceName
      portMappings = some config1) :
    ∀ v ∈ config1.rules, MutuallyExclusive v := by
  cases hdev : config.Dev with
  | none => simp [insertOrReplacePortMapping, hdev] at hins
  | some dev =>
    obtain ⟨c, hc, hcases⟩ := insertOrReplacePortMapping_cases config dev nspace
      labelSelectorMap serviceName portMappings hdev
    rw [hins] at hc
    cases hc
    rcases hcases with ⟨before, v, after, heq, _, _, hrules⟩ | ⟨_, hrules⟩
    · intro w hw
      rw [hrules] at hw
      rw [heq] at hinv
      rcases List.mem_append.1 hw with hb | hc
      · exact hinv w (List.mem_append_left _ hb)
      · rcases List.mem_cons.1 hc with rfl | ha
        · exact hinv v (List.mem_append_right _ (List.mem_cons_self _ _))
        · exact hinv w (List.mem_append_right _ (List.mem_cons_of_mem _ ha))
    · intro w hw
      rw [hrules] at hw
      rcases List.mem_append.1 hw with hb | hc
      · exact hinv w hb
      · rw [List.mem_singleton] at hc
        subst hc
        intro hset
        have hname : serviceName ≠ "" := hset
        simp [selectorAbsent, effectiveSelectors, hname, LabelMap.len, LabelMap.entries]

/-- C11: the mutual exclusion of selector and service reference is preserved by
adding. If in every rule of the config a set service reference implies an empty or
absent selector, then `insertOrReplacePortMapping` returns a config of which every
rule satisfies the same, for every target selector set, namespace, service name
and mapping list; and so does the config after every return of `AddPort`. -/
theorem insertOrReplacePortMapping_exclusive (config : Config) (dev : DevConfig)
    (nspace : String) (labelSelectorMap : LabelMap) (serviceName : String)
    (portMappings : List PortMapping) (hdev : config.Dev = some dev)
    (hinv : ∀ v ∈ config.rules, MutuallyExclusive v) :
    (∃ config1,
      insertOrReplacePortMapping config nspace labelSelectorMap serviceName portMappings =
        some config1 ∧
      ∀ v ∈ config1.rules, MutuallyExclusive v) ∧
    ∀ (save : Config → Option Error) (saveCalls : List Config) (labelSelector : String)
      (args : List String) (s1 : State) (e : Option Error),
      AddPort save ⟨config, saveCalls⟩ nspace labelSelector serviceName args = some (s1, e) →
      ∀ v ∈ s1.config.rules, MutuallyExclusive v := by
  refine ⟨?_, ?_⟩
  · obtain ⟨config1, hins, _⟩ := insertOrReplacePortMapping_cases config dev nspace
      labelSelectorMap serviceName portMappings hdev
    exact ⟨config1, hins, insertOrReplacePortMapping_keeps_exclusive config config1 nspace
      labelSelectorMap serviceName portMappings hinv hins⟩
  · intro save saveCalls labelSelector args s1 e hcall
    rcases AddPort_cases save _ s1 nspace labelSelector serviceName args e hcall with
      ⟨hs, _⟩ | ⟨target, arg0, rest, ms, config1, _, _, _, _, hins, hs1, _⟩
    · rw [hs]; exact hinv
    · rw [hs1]
      exact insertOrReplacePortMapping_keeps_exclusive config config1 nspace target
        serviceName ms hinv hins

/-- Witness of C11: a service name and a target selector on the rules `ruleS`,
`ruleB`. -/
theorem insertOrReplacePortMapping_exclusive_witness :
    (∃ config1,
      insertOrReplacePortMapping (configWith [ruleS, ruleB]) "dev" (some [("app", "a")])
        "svc" [⟨80, 80⟩] = some config1 ∧
      ∀ v ∈ config1.rules, MutuallyExclusive v) ∧
    ∀ (save : Config → Option Error) (saveCalls : List Config) (labelSelector : String)
      (args : List String) (s1 : State) (e : Option Error),
      AddPort save ⟨configWith [ruleS, ruleB], saveCalls⟩ "dev" labelSelector "svc" args =
        some (s1, e) →
      ∀ v ∈ s1.config.rules, MutuallyExclusive v :=
  insertOrReplacePortMapping_exclusive (configWith [ruleS, ruleB])
    { Selectors := none, Ports := some [ruleS, ruleB] } "dev" (some [("app", "a")]) "svc"
    [⟨80, 80⟩] rfl (by decide)

/-! ## Invariants of `RemovePort` -/

/-- A return of `RemovePort` without error has passed the selector parser and the
validation of line 90, on a config with a `Dev` section. -/
theorem RemovePort_success (save : Config → Option Error) (s s1 : State)
    (removeAll : Bool) (labelSelector : String) (args : List String)
    (hcall : RemovePort save s removeAll labelSelector args = some (s1, none)) :
    ∃ m dev, parseSelectors labelSelector = .ok m ∧
      ¬ (m.len = 0 ∧ removeAll = false ∧ argPorts args = "") ∧ s.config.Dev = some dev := by
  cases hsel : parseSelectors labelSelector with
  | error err => simp [RemovePort, hsel] at hcall
  | ok m =>
    by_cases hvalid : m.len = 0 ∧ removeAll = false ∧ argPorts args = ""
    · rw [RemovePort] at hcall
      simp only [hsel] at hcall
      rw [if_pos hvalid] at hcall
      simp at hcall
    · cases hdev : s.config.Dev with
      | none =>
        rw [RemovePort] at hcall
        simp only [hsel] at hcall
        rw [if_neg hvalid] at hcall
        simp [hdev] at hcall
      | some dev => exact ⟨m, dev, rfl, hvalid, rfl⟩

theorem mem_filteredRules (portsText : String) (rules : List PortForwardingConfig)
    (v : PortForwardingConfig) :
    v ∈ filteredRules portsText rules ↔
      ∃ u ∈ rules, survivingMappings portsText u ≠ [] ∧
        v = { u with PortMappings := survivingMappings portsText u } := by
  unfold filteredRules
  rw [List.mem_filterMap]
  constructor
  · rintro ⟨u, hu, hf⟩
    by_cases hs : survivingMappings portsText u = []
    · simp [hs] at hf
    · simp only [hs, if_false, Option.some.injEq] at hf
      exact ⟨u, hu, hs, hf.symm⟩
  · rintro ⟨u, hu, hs, rfl⟩
    exact ⟨u, hu, by simp [hs]⟩

theorem remainingRules_nonempty (removeAll : Bool) (portsText : String)
    (rules : List PortForwardingConfig) :
    ∀ v ∈ remainingRules removeAll portsText rules, v.PortMappings ≠ [] := by
  intro v hv
  cases removeAll
  · simp only [remainingRules, Bool.false_eq_true, if_false] at hv
    obtain ⟨u, _, hs, rfl⟩ := (mem_filteredRules portsText rules v).1 hv
    exact hs
  · simp [remainingRules] at hv

/-- C12: no empty rule survives a removal. On a config whose rule sequence is not
empty, after every call of `RemovePort` that returns without error every rule of
the resulting rule sequence has a mapping list that is not empty; a rule whose
mapping list was empty before the call is dropped even when no port matches, as
for the rules `ruleA2`, `ruleB` and the ports text `"77"`. -/
theorem removePort_no_empty_rule (save : Config → Option Error) (s s1 : State)
    (removeAll : Bool) (labelSelector : String) (args : List String)
    (hne : s.config.rules ≠ [])
    (hcall : RemovePort save s removeAll labelSelector args = some (s1, none)) :
    (∀ v ∈ s1.config.rules, v.PortMappings ≠ []) ∧
    (RemovePort (fun _ => none) ⟨configWith [ruleA2, ruleB], []⟩ false "" ["77"]).map
      (fun r => r.1.config.rules) = some [ruleB] := by
  refine ⟨?_, by decide⟩
  obtain ⟨m, dev, hsel, hvalid, hdev⟩ := RemovePort_success save s s1 removeAll
    labelSelector args hcall
  obtain ⟨s2, e, hcall2, hrules, _⟩ := RemovePort_rules save s removeAll labelSelector args
    m dev hsel hvalid hdev
  rw [hcall] at hcall2
  simp only [Option.some.injEq, Prod.mk.injEq] at hcall2
  rw [hcall2.1, hrules hne]
  exact remainingRules_nonempty removeAll (argPorts args) s.config.rules

/-- Witness of C12: the rule `ruleA2` has no mapping, the port 77 matches nothing. -/
theorem removePort_no_empty_rule_witness :
    (∀ v ∈ (State.mk (configWith [ruleB]) [configWith [ruleB]]).config.rules,
      v.PortMappings ≠ []) ∧
    (RemovePort (fun _ => none) ⟨configWith [ruleA2, ruleB], []⟩ false "" ["77"]).map
      (fun r => r.1.config.rules) = some [ruleB] :=
  removePort_no_empty_rule (fun _ => none) ⟨configWith [ruleA2, ruleB], []⟩
    ⟨configWith [ruleB], [configWith [ruleB]]⟩ false "" ["77"] (by decide) (by decide)

/-! ## The resolution of the target selector in `AddPort` -/

theorem getServiceWithName_none (services : List SelectorConfig) (name : String) :
    getServiceWithName services name = none ↔ ∀ entry ∈ services, entry.Name ≠ name := by
  induction services with
  | nil => simp [getServiceWithName]
  | cons service rest ih =>
    unfold getServiceWithName
    by_cases h : service.Name = name
    · simp [h]
    · simp [h, ih]

theorem getServiceWithName_first (before : List SelectorConfig) (service : SelectorConfig)
    (after : List SelectorConfig) (name : String)
    (hbefore : ∀ entry ∈ before, entry.Name ≠ name) (hname : service.Name = name) :
    getServiceWithName (before ++ service :: after) name = some service := by
  induction before with
  | nil => simp [getServiceWithName, hname]
  | cons b rest ih =>
    have hb := hbefore b (List.mem_cons_self _ _)
    have hrest := ih (fun entry he => hbefore entry (List.mem_cons_of_mem _ he))
    simp [getServiceWithName, hb, hrest]

theorem parseSelectors_empty : parseSelectors "" = .ok (some []) := by
  simp [parseSelectors]

/-- The target selector set when the resolution takes the map of a configured
entry: the map itself, or the empty map the parser gives when the map is nil. -/
theorem target_of_entry (config : Config) (labelSelector serviceName : String)
    (m : LabelMap)
    (h : AddPort.resolve config labelSelector serviceName = some (.ok (m, ""))) :
    AddPort.target config labelSelector serviceName = some (.ok (some m.entries)) := by
  rw [AddPort.target, h]
  cases m with
  | none => simp [parseSelectors_empty, LabelMap.entries]
  | some kvs => simp [LabelMap.entries]

/-- C13: the service lookup of `AddPort`, on a config whose selector list is
`first :: more`, with an empty label selector. For a service name that is not empty
the call returns the not-found error if and only if no entry of the list has
exactly that name, and then the state of the config store is unchanged (same rules,
no save); otherwise the target selector set is the selector of the first entry
with that name. For an empty service name the target selector set is the selector
of the first entry of the list. -/
theorem addPort_service_lookup (save : Config → Option Error) (s : State)
    (dev : DevConfig) (first : SelectorConfig) (more : List SelectorConfig)
    (nspace serviceName : String) (args : List String)
    (hdev : s.config.Dev = some dev) (hsel : dev.Selectors = some (first :: more)) :
    (serviceName ≠ "" →
      ((∃ s1, AddPort save s nspace "" serviceName args =
          some (s1, some (noSuchService serviceName))) ↔
        ∀ entry ∈ first :: more, entry.Name ≠ serviceName) ∧
      ((∀ entry ∈ first :: more, entry.Name ≠ serviceName) →
        AddPort save s nspace "" serviceName args =
          some (s, some (noSuchService serviceName))) ∧
      ∀ before service after, first :: more = before ++ service :: after →
        (∀ entry ∈ before, entry.Name ≠ serviceName) → service.Name = serviceName →
        AddPort.target s.config "" serviceName =
          some (.ok (some service.LabelSelector.entries))) ∧
    AddPort.target s.config "" "" = some (.ok (some first.LabelSelector.entries)) := by
  have hconf : configuredSelectors s.config = some (first :: more) := by
    simp [configuredSelectors, hdev, hsel]
  have hfound : ∀ before service after, first :: more = before ++ service :: after →
      (∀ entry ∈ before, entry.Name ≠ serviceName) → service.Name = serviceName →
      serviceName ≠ "" →
      AddPort.target s.config "" serviceName =
        some (.ok (some service.LabelSelector.entries)) := by
    intro before service after heq hbefore hname hne
    have hget := getServiceWithName_first before service after serviceName hbefore hname
    rw [← heq] at hget
    apply target_of_entry
    simp [AddPort.resolve, hconf, hget, hne]
  have hmissing : serviceName ≠ "" → (∀ entry ∈ first :: more, entry.Name ≠ serviceName) →
      AddPort save s nspace "" serviceName args =
        some (s, some (noSuchService serviceName)) := by
    intro hne hall
    have hget := (getServiceWithName_none (first :: more) serviceName).2 hall
    simp [AddPort, AddPort.target, AddPort.resolve, hconf, hget, hne, noSuchService]
  refine ⟨fun hne => ⟨⟨?_, fun hall => ⟨s, hmissing hne hall⟩⟩, hmissing hne,
    fun before service after heq hbefore hname =>
      hfound before service after heq hbefore hname hne⟩, ?_⟩
  · rintro ⟨s1, hcall⟩
    by_contra hex
    push_neg at hex
    obtain ⟨entry, hmem, hname⟩ := hex
    obtain ⟨before, after, heq⟩ := List.append_of_mem hmem
    -- the first entry with that name
    have hsome : getServiceWithName (first :: more) serviceName ≠ none := by
      intro hnone
      exact (getServiceWithName_none _ _).1 hnone entry hmem hname
    obtain ⟨service, hget⟩ := Option.ne_none_iff_exists'.1 hsome
    have htarget : AddPort.target s.config "" serviceName =
        some (.ok (some service.LabelSelector.entries)) := by
      apply target_of_entry
      simp [AddPort.resolve, hconf, hget, hne]
    rcases AddPort_cases save s s1 nspace "" serviceName args _ hcall with
      ⟨_, _⟩ | ⟨_, _, _, _, config1, _, _, _, _, _, _, he⟩
    · -- an error return: follow the code
      have hboth : ¬ (("" : String) ≠ "" ∧ serviceName ≠ "") := by simp
      rw [AddPort, if_neg hboth, htarget] at hcall
      cases args with
      | nil => simp at hcall
      | cons arg0 rest =>
        cases hp : parsePortMappings arg0 with
        | error err => simp [hp, noSuchService] at hcall
        | ok ms =>
          cases hins : insertOrReplacePortMapping s.config nspace
              (some service.LabelSelector.entries) serviceName ms with
          | none => simp [hp, hins] at hcall
          | some c =>
            simp only [hp, hins, SaveLoadedConfig] at hcall
            cases hs : save c <;> simp [hs, noSuchService] at hcall
    · cases hs : save config1 <;> simp [hs, saveError, noSuchService] at he
  · apply target_of_entry
    simp [AddPort.resolve, hconf]

/-- Witness of C13: the selector list of `serviceConfig` has the single entry `svc`. -/
theorem addPort_service_lookup_witness :
    AddPort (fun _ => none) ⟨serviceConfig, []⟩ "dev" "" "web" ["80"] =
      some (⟨serviceConfig, []⟩, some (noSuchService "web")) ∧
    AddPort.target serviceConfig "" "svc" = some (.ok (some [("app", "a")])) ∧
    AddPort.target serviceConfig "" "" = some (.ok (some [("app", "a")])) :=
  have h := fun name (args : List String) =>
    addPort_service_lookup (fun _ => none) ⟨serviceConfig, []⟩
      { Selectors := some [{ Name := "svc", LabelSelector := some [("app", "a")] }],
        Ports := none }
      { Name := "svc", LabelSelector := some [("app", "a")] } [] "dev" name args rfl rfl
  ⟨((h "web" ["80"]).1 (by decide)).2.1 (by decide),
   ((h "svc" []).1 (by decide)).2.2 [] { Name := "svc", LabelSelector := some [("app", "a")] }
      [] rfl (by simp) rfl,
   (h "" []).2⟩

/-! ## The default selector, parse errors and save errors of `AddPort` -/

theorem GetNameOfFirstHelmDeployment_loop_eq (ds : List DeploymentConfig) :
    GetNameOfFirstHelmDeployment.loop ds =
      match ds.find? (fun d => d.Helm.isSome) with
      | none => some "devspace"
      | some d => d.Name := by
  induction ds with
  | nil => rfl
  | cons d rest ih =>
    unfold GetNameOfFirstHelmDeployment.loop
    by_cases h : d.Helm.isSome = true
    · simp [h, List.find?_cons]
    · simp [h, List.find?_cons, ih]

/-- The loop of `GetNameOfFirstHelmDeployment` finds the first Helm-based deployment. -/
theorem GetNameOfFirstHelmDeployment_eq (config : Config) :
    GetNameOfFirstHelmDeployment config =
      match firstHelmDeployment config with
      | none => some "devspace"
      | some d => d.Name := by
  unfold GetNameOfFirstHelmDeployment firstHelmDeployment Config.deployments
  cases config.Deployments with
  | none => rfl
  | some ds => simpa using GetNameOfFirstHelmDeployment_loop_eq ds

theorem release_ne_empty (name : String) : "release=" ++ name ≠ "" := by
  intro h
  have hd := congrArg String.data h
  simp at hd

theorem target_of_text (config : Config) (labelSelector serviceName text : String)
    (h : AddPort.resolve config labelSelector serviceName = some (.ok (none, text))) :
    AddPort.target config labelSelector serviceName = some (parsedSelectors text) := by
  rw [AddPort.target, h]
  simp only [parsedSelectors]
  cases parseSelectors text <;> rfl

/-- C14, as amended: the default release name. `GetNameOfFirstHelmDeployment` returns
the name of the first deployment, in config order, that is Helm-based, when that
deployment has a name, and the literal `"devspace"` when no deployment is
Helm-based, in particular when no deployment has a name or is Helm-based and when
the deployment list is absent or empty. `AddPort` with an empty label selector and
no configured selector list resolves to the selector text `"release="` followed by
the name that is returned: its target selector set is what the selector parser
gives for this text, and with an empty service name the call is the call with this
text as label selector. -/
theorem getNameOfFirstHelmDeployment_spec (config : Config) :
    (∀ d name, firstHelmDeployment config = some d → d.Name = some name →
      GetNameOfFirstHelmDeployment config = some name) ∧
    (firstHelmDeployment config = none →
      GetNameOfFirstHelmDeployment config = some "devspace") ∧
    ((∀ d ∈ config.deployments, ¬ (d.Name.isSome = true ∨ d.Helm.isSome = true)) →
      GetNameOfFirstHelmDeployment config = some "devspace") ∧
    (∀ name serviceName, configuredSelectors config = none →
      GetNameOfFirstHelmDeployment config = some name →
      AddPort.resolve config "" serviceName = some (.ok (none, "release=" ++ name)) ∧
      AddPort.target config "" serviceName = some (parsedSelectors ("release=" ++ name))) ∧
    (∀ (save : Config → Option Error) (saveCalls : List Config) (nspace name : String)
      (args : List String), configuredSelectors config = none →
      GetNameOfFirstHelmDeployment config = some name →
      AddPort save ⟨config, saveCalls⟩ nspace "" "" args =
        AddPort save ⟨config, saveCalls⟩ nspace ("release=" ++ name) "" args) := by
  have hresolve : ∀ name serviceName, configuredSelectors config = none →
      GetNameOfFirstHelmDeployment config = some name →
      AddPort.resolve config "" serviceName = some (.ok (none, "release=" ++ name)) := by
    intro name serviceName hconf hname
    simp [AddPort.resolve, hconf, hname]
  have htext : ∀ name serviceName,
      AddPort.resolve config ("release=" ++ name) serviceName =
        some (.ok (none, "release=" ++ name)) := by
    intro name serviceName
    simp [AddPort.resolve, release_ne_empty name]
  refine ⟨?_, ?_, ?_, ?_, ?_⟩
  · intro d name hd hname
    rw [GetNameOfFirstHelmDeployment_eq, hd]
    exact hname
  · intro hnone
    rw [GetNameOfFirstHelmDeployment_eq, hnone]
  · intro hall
    have hnone : firstHelmDeployment config = none := by
      unfold firstHelmDeployment
      rw [List.find?_eq_none]
      intro d hd hhelm
      exact hall d hd (Or.inr hhelm)
    rw [GetNameOfFirstHelmDeployment_eq, hnone]
  · intro name serviceName hconf hname
    exact ⟨hresolve name serviceName hconf hname,
      target_of_text config "" serviceName _ (hresolve name serviceName hconf hname)⟩
  · intro save saveCalls nspace name args hconf hname
    have h1 := target_of_text config "" "" _ (hresolve name "" hconf hname)
    have h2 := target_of_text config ("release=" ++ name) "" _ (htext name "")
    simp only [AddPort, h1, h2]
    simp

/-- Witness of C14 as amended: in `helmConfig` the first Helm-based deployment is
`web`. -/
theorem getNameOfFirstHelmDeployment_spec_witness :
    GetNameOfFirstHelmDeployment helmConfig = some "web" ∧
    GetNameOfFirstHelmDeployment (configWith []) = some "devspace" ∧
    (AddPort.resolve helmConfig "" "" = some (.ok (none, "release=" ++ "web")) ∧
      AddPort.target helmConfig "" "" = some (parsedSelectors ("release=" ++ "web"))) :=
  ⟨(getNameOfFirstHelmDeployment_spec helmConfig).1 { Name := some "web", Helm := some () }
      "web" (by decide) rfl,
   (getNameOfFirstHelmDeployment_spec (configWith [])).2.1 (by decide),
   (getNameOfFirstHelmDeployment_spec helmConfig).2.2.2.1 "web" "" (by decide) (by decide)⟩

theorem configuredSelectors_ne_nil (config : Config) (services : List SelectorConfig)
    (h : configuredSelectors config = some services) : services ≠ [] := by
  unfold configuredSelectors at h
  cases hdev : config.Dev with
  | none => simp [hdev] at h
  | some dev =>
    cases hs : dev.Selectors with
    | none => simp [hdev, hs] at h
    | some l =>
      cases l with
      | nil => simp [hdev, hs] at h
      | cons first more =>
        simp [hdev, hs] at h
        rw [← h]
        simp

/-- The resolution of the target selector does not panic when the first Helm-based
deployment has a name. -/
theorem target_ne_none (config : Config) (labelSelector serviceName : String)
    (hname : GetNameOfFirstHelmDeployment config ≠ none) :
    AddPort.target config labelSelector serviceName ≠ none := by
  have hres : AddPort.resolve config labelSelector serviceName ≠ none := by
    unfold AddPort.resolve
    by_cases hl : labelSelector = ""
    · simp only [hl, if_true]
      cases hconf : configuredSelectors config with
      | none =>
        obtain ⟨name, hn⟩ := Option.ne_none_iff_exists'.1 hname
        simp [hn]
      | some services =>
        by_cases hs : serviceName = ""
        · cases services with
          | nil => exact absurd rfl (configuredSelectors_ne_nil config [] hconf)
          | cons first more => simp [hs]
        · cases hget : getServiceWithName services serviceName <;> simp [hs, hget]
    · simp [hl]
  unfold AddPort.target
  cases hr : AddPort.resolve config labelSelector serviceName with
  | none => exact absurd hr hres
  | some r =>
    cases r with
    | error err => simp
    | ok pair =>
      obtain ⟨m, text⟩ := pair
      cases m with
      | none => cases hp : parseSelectors text <;> simp [hp]
      | some kvs => simp

theorem parsePortMappings_loop_length (segs : List String) :
    ∀ (acc ms : List PortMapping), parsePortMappings.loop acc segs = .ok ms →
      ms.length = acc.length + segs.length := by
  induction segs with
  | nil =>
    intro acc ms h
    simp only [parsePortMappings.loop, Except.ok.injEq] at h
    simp [h]
  | cons v rest ih =>
    intro acc ms h
    unfold parsePortMappings.loop at h
    split at h
    · split at h
      · cases h
      · have := ih _ _ h
        simp at this
        simp only [this, List.length_cons]
        omega
    · split at h
      · cases h
      · split at h
        · cases h
        · have := ih _ _ h
          simp at this
          simp only [this, List.length_cons]
          omega
    · cases h

/-- A successful `parsePortMappings` returns at least one mapping. -/
theorem parsePortMappings_ne_nil (text : String) (ms : List PortMapping)
    (h : parsePortMappings text = .ok ms) : ms ≠ [] := by
  have hlen := parsePortMappings_loop_length (Split text ',') [] ms h
  have hpos : 0 < (Split text ',').length := List.length_pos.2 (Split_ne_nil _ _)
  intro hnil
  rw [hnil] at hlen
  simp at hlen
  omega

/-- An insertion of at least one mapping changes the rule sequence. -/
theorem insertOrReplacePortMapping_rules_ne (config config1 : Config) (nspace : String)
    (labelSelectorMap : LabelMap) (serviceName : String) (portMappings : List PortMapping)
    (hms : portMappings ≠ [])
    (hins : insertOrReplacePortMapping config nspace labelSelectorMap serviceName
      portMappings = some config1) :
    config1.rules ≠ config.rules := by
  cases hdev : config.Dev with
  | none => simp [insertOrReplacePortMapping, hdev] at hins
  | some dev =>
    obtain ⟨c, hc, hcases⟩ := insertOrReplacePortMapping_cases config dev nspace
      labelSelectorMap serviceName portMappings hdev
    rw [hins] at hc
    cases hc
    rcases hcases with ⟨before, v, after, heq, _, _, hrules⟩ | ⟨_, hrules⟩
    · rw [hrules, heq]
      intro h
      have h2 := List.append_cancel_left h
      simp only [List.cons.injEq, and_true] at h2
      have h3 := congrArg PortForwardingConfig.PortMappings h2
      simp at h3
      exact hms h3
    · rw [hrules]
      intro h
      have := congrArg List.length h
      simp at this

/-- C17: no rollback on a save failure. When the validation, the resolution of the
target selector, the parsing of the port mappings and the insertion go through and
the save of the config store fails, `AddPort` returns the error "Couldn't save
config file" and the config in memory is the edited one, the result of
`insertOrReplacePortMapping` on the original config, whose rule sequence differs
from the original one. -/
theorem addPort_no_rollback (save : Config → Option Error) (s : State)
    (nspace labelSelector serviceName arg0 : String) (rest : List String)
    (target : LabelMap) (ms : List PortMapping) (config1 : Config) (err : Error)
    (hboth : ¬ (labelSelector ≠ "" ∧ serviceName ≠ ""))
    (ht : AddPort.target s.config labelSelector serviceName = some (.ok target))
    (hp : parsePortMappings arg0 = .ok ms)
    (hins : insertOrReplacePortMapping s.config nspace target serviceName ms = some config1)
    (hsave : save config1 = some err) :
    AddPort save s nspace labelSelector serviceName (arg0 :: rest) =
      some (⟨config1, s.saveCalls ++ [config1]⟩,
        some (.wrapf "Couldn't save config file: " err)) ∧
    config1.rules ≠ s.config.rules := by
  refine ⟨?_, insertOrReplacePortMapping_rules_ne s.config config1 nspace target serviceName
    ms (parsePortMappings_ne_nil arg0 ms hp) hins⟩
  rw [AddPort_eq save s nspace labelSelector serviceName arg0 rest target ms config1 hboth ht
    hp hins, hsave]
  rfl

/-- Witness of C17: a store whose save always fails. -/
theorem addPort_no_rollback_witness :
    AddPort (fun _ => some (.errorf "disk full")) ⟨configWith [ruleB], []⟩ "dev" "app=a" ""
        ("80" :: []) =
      some (⟨configWith [ruleB, ruleAdded], [] ++ [configWith [ruleB, ruleAdded]]⟩,
        some (.wrapf "Couldn't save config file: " (.errorf "disk full"))) ∧
    (configWith [ruleB, ruleAdded]).rules ≠ (configWith [ruleB]).rules :=
  addPort_no_rollback (fun _ => some (.errorf "disk full")) ⟨configWith [ruleB], []⟩ "dev"
    "app=a" "" "80" [] (some [("app", "a")]) [⟨80, 80⟩] (configWith [ruleB, ruleAdded])
    (.errorf "disk full") (by decide) (by decide) (by decide) (by decide) rfl

/-! ## `RemovePort` without ports, and `RemovePort` twice -/

theorem toDigitsCore_ne_nil (fuel : Nat) :
    ∀ (n : Nat) (ds : List Char), ds ≠ [] → Nat.toDigitsCore 10 fuel n ds ≠ [] := by
  induction fuel with
  | zero => intro n ds h; simpa [Nat.toDigitsCore] using h
  | succ fuel ih =>
    intro n ds _
    unfold Nat.toDigitsCore
    simp only
    split
    · simp
    · exact ih _ _ (by simp)

theorem toDigits_ne_nil (n : Nat) : Nat.toDigits 10 n ≠ [] := by
  unfold Nat.toDigits Nat.toDigitsCore
  simp only
  split
  · simp
  · exact toDigitsCore_ne_nil _ _ _ (by simp)

/-- The decimal rendering of an integer is never the empty text. -/
theorem Itoa_ne_empty (i : Int) : Itoa i ≠ "" := by
  intro h
  have hd := congrArg String.data h
  cases i with
  | ofNat n => exact toDigits_ne_nil n (by simpa [Itoa] using hd)
  | negSucc n => simp [Itoa] at hd

/-- The single empty token of the empty ports text lists no port. -/
theorem not_portListed_empty (port : Int) : ¬ portListed "" port := by
  have hsplit : Split "" ',' = [""] := by decide
  have htrim : TrimSpace "" = "" := by decide
  simp only [portListed, hsplit, List.mem_singleton, exists_eq_left, htrim]
  exact fun h => Itoa_ne_empty port h.symm

theorem survivingMappings_empty (v : PortForwardingConfig) :
    survivingMappings "" v = v.PortMappings := by
  unfold survivingMappings
  rw [List.filter_eq_self]
  intro pm _
  simp [not_portListed_empty]

theorem filterMap_unless {α : Type} (p : α → Prop) [DecidablePred p] (l : List α) :
    l.filterMap (fun a => if p a then none else some a) = l.filter (fun a => ¬ p a) := by
  induction l with
  | nil => rfl
  | cons a rest ih =>
    rw [List.filterMap_cons, List.filter_cons]
    by_cases h : p a
    · simp only [h, if_true, not_true_eq_false, decide_False, Bool.false_eq_true, if_false]
      exact ih
    · simp only [h, if_false, not_false_eq_true, decide_True, if_true]
      rw [ih]

theorem filteredRules_empty (rules : List PortForwardingConfig) :
    filteredRules "" rules = rules.filter (fun v => v.PortMappings ≠ []) := by
  unfold filteredRules
  have hf : (fun v : PortForwardingConfig =>
      if survivingMappings "" v = [] then none
      else some { v with PortMappings := survivingMappings "" v }) =
      (fun v => if v.PortMappings = [] then none else some v) := by
    funext v
    rw [survivingMappings_empty]
  rw [hf]
  exact filterMap_unless (fun v : PortForwardingConfig => v.PortMappings = []) rules

/-- C19: `RemovePort` with only a label selector removes no mapping. With
`removeAll = false`, an empty ports text and a selector text that parses to a
selector set that is not empty, the call returns and the resulting rule sequence is
the original one without the rules whose mapping list was already empty, whatever the
selectors of the rules are; the single empty token of the ports text never equals the
decimal rendering of a port. -/
theorem removePort_selector_only (save : Config → Option Error) (s : State)
    (labelSelector : String) (args : List String) (m : LabelMap) (dev : DevConfig)
    (hsel : parseSelectors labelSelector = .ok m) (hne : m.len ≠ 0)
    (hargs : argPorts args = "") (hdev : s.config.Dev = some dev) :
    (∀ port : Int, ¬ portListed "" port) ∧
    ∃ s1 e, RemovePort save s false labelSelector args = some (s1, e) ∧
      s1.config.rules = s.config.rules.filter (fun v => v.PortMappings ≠ []) := by
  refine ⟨not_portListed_empty, ?_⟩
  obtain ⟨s1, e, hcall, hrules, hnil⟩ := RemovePort_rules save s false labelSelector args
    m dev hsel (fun h => hne h.1) hdev
  refine ⟨s1, e, hcall, ?_⟩
  by_cases hr : s.config.rules = []
  · rw [hnil hr, hr]; rfl
  · rw [hrules hr, hargs, ← filteredRules_empty]; rfl

/-- Witness of C19: the selector text `app=b` and no ports argument; the rule `ruleA2`
has no mapping. -/
theorem removePort_selector_only_witness :
    (∀ port : Int, ¬ portListed "" port) ∧
    ∃ s1 e, RemovePort (fun _ => none) ⟨configWith [ruleA, ruleA2, ruleB], []⟩ false "app=b"
        [] = some (s1, e) ∧
      s1.config.rules =
        (configWith [ruleA, ruleA2, ruleB]).rules.filter (fun v => v.PortMappings ≠ []) :=
  removePort_selector_only (fun _ => none) ⟨configWith [ruleA, ruleA2, ruleB], []⟩ "app=b" []
    (some [("app", "b")]) { Selectors := none, Ports := some [ruleA, ruleA2, ruleB] }
    (by decide) (by decide) rfl rfl

theorem survivingMappings_idem (portsText : String) (u : PortForwardingConfig) :
    survivingMappings portsText { u with PortMappings := survivingMappings portsText u } =
      survivingMappings portsText u := by
  simp [survivingMappings, List.filter_filter]

theorem filteredRules_idem (portsText : String) (rules : List PortForwardingConfig) :
    filteredRules portsText (filteredRules portsText rules) = filteredRules portsText rules := by
  induction rules with
  | nil => rfl
  | cons v rest ih =>
    unfold filteredRules at ih ⊢
    by_cases h : survivingMappings portsText v = []
    · simp only [List.filterMap_cons, h, if_true, ih]
    · simp only [List.filterMap_cons, h, if_false, survivingMappings_idem, ih]

theorem remainingRules_idem (removeAll : Bool) (portsText : String)
    (rules : List PortForwardingConfig) :
    remainingRules removeAll portsText (remainingRules removeAll portsText rules) =
      remainingRules removeAll portsText rules := by
  cases removeAll
  · simp [remainingRules, filteredRules_idem]
  · simp [remainingRules]

/-- C20: `RemovePort` is idempotent on the rule sequence. After a call of `RemovePort`
that returns without error, a second call with the same arguments returns and
leaves the config, in particular the rule sequence, as the first call left it. -/
theorem removePort_idempotent (save save2 : Config → Option Error) (s s1 : State)
    (removeAll : Bool) (labelSelector : String) (args : List String)
    (hcall : RemovePort save s removeAll labelSelector args = some (s1, none)) :
    ∃ s2 e2, RemovePort save2 s1 removeAll labelSelector args = some (s2, e2) ∧
      s2.config = s1.config ∧ s2.config.rules = s1.config.rules := by
  obtain ⟨m, dev, hsel, hvalid, hdev⟩ := RemovePort_success save s s1 removeAll
    labelSelector args hcall
  have h1 := RemovePort_eq save s removeAll labelSelector args m dev hsel hvalid hdev
  rw [hcall] at h1
  have key : ∀ t : State, (∃ dev1, t.config.Dev = some dev1 ∧
      (dev1.Ports = none ∨ dev1.Ports = some [] ∨
        ∃ rules, dev1.Ports = some (remainingRules removeAll (argPorts args) rules))) →
      ∃ s2 e2, RemovePort save2 t removeAll labelSelector args = some (s2, e2) ∧
        s2.config = t.config := by
    rintro t ⟨dev1, hdev1, hports⟩
    rw [RemovePort_eq save2 t removeAll labelSelector args m dev1 hsel hvalid hdev1]
    rcases hports with hp | hp | ⟨rules, hp⟩
    · rw [hp]; exact ⟨t, none, rfl, rfl⟩
    · rw [hp]; exact ⟨t, none, rfl, rfl⟩
    · rw [hp]
      cases hrem : remainingRules removeAll (argPorts args) rules with
      | nil => exact ⟨t, none, rfl, rfl⟩
      | cons v rest =>
        refine ⟨_, _, rfl, ?_⟩
        rw [← hrem, remainingRules_idem]
        show ({ t.config with Dev := some { dev1 with
          Ports := some (remainingRules removeAll (argPorts args) rules) } } : Config) = _
        rw [← hp, ← hdev1]
  have hs1 : ∃ dev1, s1.config.Dev = some dev1 ∧
      (dev1.Ports = none ∨ dev1.Ports = some [] ∨
        ∃ rules, dev1.Ports = some (remainingRules removeAll (argPorts args) rules)) := by
    cases hp : dev.Ports with
    | none =>
      rw [hp] at h1
      simp only [Option.some.injEq, Prod.mk.injEq] at h1
      rw [h1.1]
      exact ⟨dev, hdev, Or.inl hp⟩
    | some ps =>
      cases ps with
      | nil =>
        rw [hp] at h1
        simp only [Option.some.injEq, Prod.mk.injEq] at h1
        rw [h1.1]
        exact ⟨dev, hdev, Or.inr (Or.inl hp)⟩
      | cons v rest =>
        rw [hp] at h1
        simp only [Option.some.injEq, Prod.mk.injEq] at h1
        rw [h1.1]
        exact ⟨_, rfl, Or.inr (Or.inr ⟨v :: rest, rfl⟩)⟩
  obtain ⟨s2, e2, hcall2, hconfig⟩ := key s1 hs1
  exact ⟨s2, e2, hcall2, hconfig, by rw [hconfig]⟩

/-- Witness of C20: the removal of port 80 from the rules `ruleA`, `ruleB`, twice. -/
theorem removePort_idempotent_witness :
    ∃ s2 e2, RemovePort (fun _ => none) ⟨configWith [ruleB], [configWith [ruleB]]⟩ false ""
        ["80"] = some (s2, e2) ∧
      s2.config = (State.mk (configWith [ruleB]) [configWith [ruleB]]).config ∧
      s2.config.rules = (State.mk (configWith [ruleB]) [configWith [ruleB]]).config.rules :=
  removePort_idempotent (fun _ => none) (fun _ => none) ⟨configWith [ruleA, ruleB], []⟩
    ⟨configWith [ruleB], [configWith [ruleB]]⟩ false "" ["80"] (by decide)

/-! ## `strconv.Atoi` on decimal integers -/

theorem foldl_digits_ge (ds : List Char) :
    ∀ n : Nat, n ≤ ds.foldl (fun n c => n * 10 + (c.toNat - '0'.toNat)) n := by
  induction ds with
  | nil => intro n; exact Nat.le_refl n
  | cons c cs ih =>
    intro n
    have h := ih (n * 10 + (c.toNat - '0'.toNat))
    simp only [List.foldl_cons]
    omega

theorem parseUintLoop_eq (ds : List Char) :
    ∀ n : Nat, (∀ c ∈ ds, c.isDigit = true) →
      ds.foldl (fun n c => n * 10 + (c.toNat - '0'.toNat)) n ≤ maxUint64 →
      parseUintLoop n ds = .ok (ds.foldl (fun n c => n * 10 + (c.toNat - '0'.toNat)) n) := by
  induction ds with
  | nil => intro n _ _; rfl
  | cons c cs ih =>
    intro n hd hle
    have hc : c.isDigit = true := hd c (List.mem_cons_self _ _)
    have hcs : ∀ x ∈ cs, x.isDigit = true := fun x hx => hd x (List.mem_cons_of_mem _ hx)
    simp only [List.foldl_cons] at hle ⊢
    have hge := foldl_digits_ge cs (n * 10 + (c.toNat - '0'.toNat))
    have hmax : maxUint64 = 18446744073709551615 := by norm_num [maxUint64]
    have h1 : ¬ n ≥ maxUint64 / 10 + 1 := by
      rw [hmax] at hle ⊢
      omega
    have h2 : ¬ n * 10 + (c.toNat - '0'.toNat) > maxUint64 := by omega
    unfold parseUintLoop
    simp only [hc, if_true, h1, if_false, h2]
    exact ih _ hcs hle

theorem ParseUint_eq (ds : List Char) (hne : ds ≠ []) (hd : ∀ c ∈ ds, c.isDigit = true)
    (hle : digitsValue ds ≤ maxUint64) : ParseUint ds = .ok (digitsValue ds) := by
  cases ds with
  | nil => exact absurd rfl hne
  | cons c cs => exact parseUintLoop_eq (c :: cs) 0 hd hle

theorem isDigit_ne (c : Char) (h : c.isDigit = true) :
    c ≠ '+' ∧ c ≠ '-' ∧ c ≠ ',' ∧ c ≠ ':' := by
  refine ⟨?_, ?_, ?_, ?_⟩ <;>
  · intro heq
    rw [heq] at h
    exact absurd h (by decide)

/-- `strconv.Atoi` accepts every decimal integer of the `int` range, with its value. -/
theorem Atoi_decimal (p : String) (n : Int) (hp : DecimalText p n)
    (hlo : -(2 : Int) ^ 63 ≤ n) (hhi : n < (2 : Int) ^ 63) : Atoi p = .ok n := by
  obtain ⟨ds, hne, hd, hcase⟩ := hp
  have hmax : maxUint64 = 18446744073709551615 := by norm_num [maxUint64]
  have hpow : (2 : Int) ^ 63 = 9223372036854775808 := by norm_num
  have hpowN : (2 : Nat) ^ 63 = 9223372036854775808 := by norm_num
  rw [hpow] at hlo hhi
  have hle : digitsValue ds ≤ maxUint64 := by
    rw [hmax]
    rcases hcase with ⟨_, hn⟩ | ⟨_, hn⟩ | ⟨_, hn⟩ <;> omega
  have hu := ParseUint_eq ds hne hd hle
  unfold Atoi ParseInt
  rcases hcase with ⟨hdata, hn⟩ | ⟨hdata, hn⟩ | ⟨hdata, hn⟩
  · cases ds with
    | nil => exact absurd rfl hne
    | cons c cs =>
      obtain ⟨h1, h2, _, _⟩ := isDigit_ne c (hd c (List.mem_cons_self _ _))
      have hlt : ¬ digitsValue (c :: cs) ≥ 2 ^ 63 := by rw [hpowN]; omega
      rw [hdata]
      simp only [h1, h2, or_self, if_false, hu, not_false_eq_true, true_and, hlt, false_and]
      rw [hn]
  · have hlt : ¬ digitsValue ds ≥ 2 ^ 63 := by rw [hpowN]; omega
    rw [hdata]
    simp only [true_or, if_true, hu]
    have hneg : ¬ ('+' : Char) = '-' := by decide
    simp only [hneg, not_false_eq_true, true_and, hlt, if_false, false_and]
    rw [hn]
  · have hlt : ¬ digitsValue ds > 2 ^ 63 := by rw [hpowN]; omega
    rw [hdata]
    simp only [or_true, if_true, hu, not_true_eq_false, false_and, if_false, true_and, hlt]
    rw [hn]

theorem splitChars_of_not_mem (sep : Char) (cs : List Char) (h : sep ∉ cs) :
    splitChars sep cs = [cs] := by
  induction cs with
  | nil => rfl
  | cons c rest ih =>
    have hc : ¬ c = sep := fun heq => h (heq ▸ List.mem_cons_self _ _)
    have hrest := ih (fun hm => h (List.mem_cons_of_mem _ hm))
    simp [splitChars, hc, hrest]

theorem splitChars_append (sep : Char) (a b : List Char) (h : sep ∉ a) :
    splitChars sep (a ++ sep :: b) = a :: splitChars sep b := by
  induction a with
  | nil => simp [splitChars]
  | cons c rest ih =>
    have hc : ¬ c = sep := fun heq => h (heq ▸ List.mem_cons_self _ _)
    have hrest := ih (fun hm => h (List.mem_cons_of_mem _ hm))
    simp [splitChars, hc, hrest]

/-- A decimal integer contains neither a comma nor a colon. -/
theorem DecimalText_no_sep (p : String) (n : Int) (hp : DecimalText p n) :
    ',' ∉ p.data ∧ ':' ∉ p.data := by
  obtain ⟨ds, _, hd, hcase⟩ := hp
  have hds : ',' ∉ ds ∧ ':' ∉ ds :=
    ⟨fun hm => (isDigit_ne _ (hd _ hm)).2.2.1 rfl, fun hm => (isDigit_ne _ (hd _ hm)).2.2.2 rfl⟩
  rcases hcase with ⟨hdata, _⟩ | ⟨hdata, _⟩ | ⟨hdata, _⟩ <;> rw [hdata]
  · exact hds
  · exact ⟨by simp [hds.1], by simp [hds.2]⟩
  · exact ⟨by simp [hds.1], by simp [hds.2]⟩

theorem parsePortMappings_one (p : String) (n : Int) (hp : DecimalText p n)
    (hlo : -(2 : Int) ^ 63 ≤ n) (hhi : n < (2 : Int) ^ 63) :
    parsePortMappings p = .ok [⟨n, n⟩] := by
  obtain ⟨hcomma, hcolon⟩ := DecimalText_no_sep p n hp
  have h1 : Split p ',' = [p] := by simp [Split, splitChars_of_not_mem _ _ hcomma]
  have h2 : Split p ':' = [p] := by simp [Split, splitChars_of_not_mem _ _ hcolon]
  simp [parsePortMappings, parsePortMappings.loop, h1, h2, Atoi_decimal p n hp hlo hhi]

theorem parsePortMappings_two (p q : String) (n k : Int) (hp : DecimalText p n)
    (hq : DecimalText q k) (hlo : -(2 : Int) ^ 63 ≤ n) (hhi : n < (2 : Int) ^ 63)
    (hlo2 : -(2 : Int) ^ 63 ≤ k) (hhi2 : k < (2 : Int) ^ 63) :
    parsePortMappings (p ++ ":" ++ q) = .ok [⟨n, k⟩] := by
  obtain ⟨hcomma, hcolon⟩ := DecimalText_no_sep p n hp
  obtain ⟨hcomma2, hcolon2⟩ := DecimalText_no_sep q k hq
  have hdata : (p ++ ":" ++ q).data = p.data ++ ':' :: q.data := by
    simp [String.data_append]
  have h1 : Split (p ++ ":" ++ q) ',' = [p ++ ":" ++ q] := by
    have hno : ',' ∉ (p ++ ":" ++ q).data := by
      rw [hdata]
      simp [hcomma, hcomma2]
    rw [Split, splitChars_of_not_mem _ _ hno]
    rfl
  have h2 : Split (p ++ ":" ++ q) ':' = [p, q] := by
    simp [Split, hdata, splitChars_append _ _ _ hcolon, splitChars_of_not_mem _ _ hcolon2]
  simp [parsePortMappings, parsePortMappings.loop, h1, h2, Atoi_decimal p n hp hlo hhi,
    Atoi_decimal q k hq hlo2 hhi2]

theorem digitChar_spec (k : Nat) (hk : k < 10) :
    (Nat.digitChar k).isDigit = true ∧ (Nat.digitChar k).toNat - '0'.toNat = k := by
  interval_cases k <;> decide

theorem digitsValue_append (pre : List Char) (c : Char) :
    digitsValue (pre ++ [c]) = digitsValue pre * 10 + (c.toNat - '0'.toNat) := by
  simp [digitsValue, List.foldl_append]

theorem toDigitsCore_spec (fuel : Nat) :
    ∀ (n : Nat) (ds : List Char), n < fuel →
      ∃ pre, Nat.toDigitsCore 10 fuel n ds = pre ++ ds ∧ pre ≠ [] ∧
        (∀ c ∈ pre, c.isDigit = true) ∧ digitsValue pre = n := by
  induction fuel with
  | zero => intro n ds h; omega
  | succ fuel ih =>
    intro n ds hn
    obtain ⟨hdig, hval⟩ := digitChar_spec (n % 10) (Nat.mod_lt _ (by decide))
    unfold Nat.toDigitsCore
    simp only
    split
    · rename_i hzero
      refine ⟨[Nat.digitChar (n % 10)], rfl, by simp, by simpa using hdig, ?_⟩
      have := digitsValue_append [] (Nat.digitChar (n % 10))
      simp only [List.nil_append] at this
      rw [this, hval]
      simp [digitsValue]
      omega
    · rename_i hpos
      obtain ⟨pre, heq, _, hd, hv⟩ := ih (n / 10) (Nat.digitChar (n % 10) :: ds) (by omega)
      refine ⟨pre ++ [Nat.digitChar (n % 10)], by simp [heq], by simp, ?_, ?_⟩
      · intro c hc
        rcases List.mem_append.1 hc with h | h
        · exact hd c h
        · rw [List.mem_singleton] at h
          rw [h]
          exact hdig
      · rw [digitsValue_append, hv, hval]
        omega

theorem toDigits_spec (n : Nat) :
    Nat.toDigits 10 n ≠ [] ∧ (∀ c ∈ Nat.toDigits 10 n, c.isDigit = true) ∧
      digitsValue (Nat.toDigits 10 n) = n := by
  obtain ⟨pre, heq, hne, hd, hv⟩ := toDigitsCore_spec (n + 1) n [] (by omega)
  have : Nat.toDigits 10 n = pre := by simpa [Nat.toDigits] using heq
  rw [this]
  exact ⟨hne, hd, hv⟩

/-- The decimal rendering of an integer is a decimal integer of that value. -/
theorem Itoa_decimal (n : Int) : DecimalText (Itoa n) n := by
  cases n with
  | ofNat k =>
    obtain ⟨hne, hd, hv⟩ := toDigits_spec k
    exact ⟨Nat.toDigits 10 k, hne, hd, Or.inl ⟨rfl, by rw [hv]; rfl⟩⟩
  | negSucc k =>
    obtain ⟨hne, hd, hv⟩ := toDigits_spec (k + 1)
    exact ⟨Nat.toDigits 10 (k + 1), hne, hd, Or.inr (Or.inr ⟨rfl, by rw [hv]; rfl⟩)⟩

/-- C18: the port range is not enforced by parsing. `parsePortMappings` succeeds on
`"0"` with `[(0,0)]` and on `"-1:70000"` with `[(-1,70000)]`, ports outside
1..65535; and every segment part that is a possibly signed decimal integer of the
64 bit integer range is accepted with its value, whatever the value is: as a
segment of one part, as the parts of a segment of two parts, and in particular
for the decimal rendering of every integer of the range. -/
theorem parsePortMappings_no_range_check :
    parsePortMappings "0" = .ok [⟨0, 0⟩] ∧
    parsePortMappings "-1:70000" = .ok [⟨-1, 70000⟩] ∧
    (∀ (p : String) (n : Int), DecimalText p n → -(2 : Int) ^ 63 ≤ n → n < (2 : Int) ^ 63 →
      Atoi p = .ok n ∧ parsePortMappings p = .ok [⟨n, n⟩]) ∧
    (∀ (p q : String) (n k : Int), DecimalText p n → DecimalText q k →
      -(2 : Int) ^ 63 ≤ n → n < (2 : Int) ^ 63 → -(2 : Int) ^ 63 ≤ k → k < (2 : Int) ^ 63 →
      parsePortMappings (p ++ ":" ++ q) = .ok [⟨n, k⟩]) ∧
    (∀ n k : Int, -(2 : Int) ^ 63 ≤ n → n < (2 : Int) ^ 63 → -(2 : Int) ^ 63 ≤ k →
      k < (2 : Int) ^ 63 →
      parsePortMappings (Itoa n) = .ok [⟨n, n⟩] ∧
      parsePortMappings (Itoa n ++ ":" ++ Itoa k) = .ok [⟨n, k⟩]) := by
  refine ⟨by decide, by decide, ?_, ?_, ?_⟩
  · intro p n hp hlo hhi
    exact ⟨Atoi_decimal p n hp hlo hhi, parsePortMappings_one p n hp hlo hhi⟩
  · intro p q n k hp hq hlo hhi hlo2 hhi2
    exact parsePortMappings_two p q n k hp hq hlo hhi hlo2 hhi2
  · intro n k hlo hhi hlo2 hhi2
    exact ⟨parsePortMappings_one _ n (Itoa_decimal n) hlo hhi,
      parsePortMappings_two _ _ n k (Itoa_decimal n) (Itoa_decimal k) hlo hhi hlo2 hhi2⟩

/-- Witness of C18: the texts `"+0080"` and `"-9223372036854775808"`, and the
renderings of 70000 and -1. -/
theorem parsePortMappings_no_range_check_witness :
    (Atoi "+0080" = .ok 80 ∧ parsePortMappings "+0080" = .ok [⟨80, 80⟩]) ∧
    (Atoi "-9223372036854775808" = .ok (-9223372036854775808) ∧
      parsePortMappings "-9223372036854775808" =
        .ok [⟨-9223372036854775808, -9223372036854775808⟩]) ∧
    (parsePortMappings (Itoa 70000) = .ok [⟨70000, 70000⟩] ∧
      parsePortMappings (Itoa 70000 ++ ":" ++ Itoa (-1)) = .ok [⟨70000, -1⟩]) :=
  ⟨parsePortMappings_no_range_check.2.2.1 "+0080" 80
      ⟨['0', '0', '8', '0'], by decide, by decide, Or.inr (Or.inl ⟨rfl, by decide⟩)⟩
      (by norm_num) (by norm_num),
   parsePortMappings_no_range_check.2.2.1 "-9223372036854775808" (-9223372036854775808)
      ⟨"9223372036854775808".data, by decide, by decide, Or.inr (Or.inr ⟨rfl, by decide⟩)⟩
      (by norm_num) (by norm_num),
   parsePortMappings_no_range_check.2.2.2.2 70000 (-1) (by norm_num) (by norm_num)
      (by norm_num) (by norm_num)⟩

/-! ## Trimming, and the port filter of `RemovePort` in the words of the specification -/

theorem isSpace_of_isDigit (c : Char) (h : c.isDigit = true) : isSpace c = false := by
  have hb : 48 ≤ c.toNat ∧ c.toNat ≤ 57 := by
    simp only [Char.isDigit, Bool.and_eq_true, decide_eq_true_eq] at h
    exact ⟨h.1, h.2⟩
  have hne : ∀ d : Char, d.toNat < 48 → c ≠ d := by
    intro d hd heq
    rw [heq] at hb
    omega
  have h1 := hne '\t' (by decide)
  have h2 := hne '\n' (by decide)
  have h3 := hne '\x0b' (by decide)
  have h4 := hne '\x0c' (by decide)
  have h5 := hne '\r' (by decide)
  have h6 := hne ' ' (by decide)
  simp only [isSpace, h1, h2, h3, h4, h5, h6, decide_False, Bool.false_or, Bool.or_eq_false_iff,
    decide_eq_false_iff_not, Bool.and_eq_false_imp, decide_eq_true_eq]
  omega

theorem dropWhile_padded (p : Char → Bool) (pre rest : List Char)
    (hpre : ∀ c ∈ pre, p c = true) (hrest : ∀ c, rest.head? = some c → p c = false) :
    (pre ++ rest).dropWhile p = rest := by
  induction pre with
  | nil =>
    cases rest with
    | nil => rfl
    | cons c cs => simp [List.dropWhile_cons, hrest c rfl]
  | cons a as ih =>
    have ha := hpre a (List.mem_cons_self _ _)
    have := ih (fun c hc => hpre c (List.mem_cons_of_mem _ hc))
    simp [List.dropWhile_cons, ha, this]

/-- Trimming a text that is padded with white space gives the text, when the text is
not empty and neither begins nor ends with white space. -/
theorem TrimSpace_padded (pre t post : List Char) (hpre : ∀ c ∈ pre, isSpace c = true)
    (hpost : ∀ c ∈ post, isSpace c = true) (hne : t ≠ [])
    (hhead : ∀ c, t.head? = some c → isSpace c = false)
    (hlast : ∀ c, t.getLast? = some c → isSpace c = false) :
    TrimSpace (String.mk (pre ++ t ++ post)) = String.mk t := by
  have h1 : (pre ++ t ++ post).dropWhile isSpace = t ++ post := by
    rw [List.append_assoc]
    apply dropWhile_padded isSpace pre (t ++ post) hpre
    intro c hc
    cases t with
    | nil => exact absurd rfl hne
    | cons a as => exact hhead c (by simpa using hc)
  have h2 : ((t ++ post).reverse).dropWhile isSpace = t.reverse := by
    rw [List.reverse_append]
    apply dropWhile_padded isSpace post.reverse t.reverse
    · intro c hc
      exact hpost c (List.mem_reverse.1 hc)
    · intro c hc
      exact hlast c (by rw [← List.head?_reverse]; exact hc)
  simp only [TrimSpace, h1, h2, List.reverse_reverse]

/-- What trimming removes is white space, and what it leaves neither begins nor ends
with white space. -/
theorem TrimSpace_spec (token : String) :
    PaddedWith token (TrimSpace token) ∧
    (∀ c, (TrimSpace token).data.head? = some c → isSpace c = false) ∧
    (∀ c, (TrimSpace token).data.getLast? = some c → isSpace c = false) := by
  have hl : token.data = token.data.takeWhile isSpace ++ token.data.dropWhile isSpace :=
    (List.takeWhile_append_dropWhile isSpace token.data).symm
  generalize hr : token.data.dropWhile isSpace = r at hl
  have hq : r.reverse = r.reverse.takeWhile isSpace ++ r.reverse.dropWhile isSpace :=
    (List.takeWhile_append_dropWhile isSpace r.reverse).symm
  have hr2 : r = (r.reverse.dropWhile isSpace).reverse ++
      (r.reverse.takeWhile isSpace).reverse := by
    have h := congrArg List.reverse hq
    rw [List.reverse_reverse, List.reverse_append] at h
    exact h
  have htrim : (TrimSpace token).data = (r.reverse.dropWhile isSpace).reverse := by
    simp [TrimSpace, hr]
  have hrhead : ∀ c, r.head? = some c → isSpace c = false := by
    intro c hc
    have := List.head?_dropWhile_not isSpace token.data
    rw [hr, hc] at this
    exact this
  refine ⟨⟨token.data.takeWhile isSpace, (r.reverse.takeWhile isSpace).reverse, ?_, ?_, ?_⟩,
    ?_, ?_⟩
  · rw [htrim, List.append_assoc, ← hr2]
    exact hl
  · intro c hc
    exact List.mem_takeWhile_imp hc
  · intro c hc
    exact List.mem_takeWhile_imp (List.mem_reverse.1 hc)
  · intro c hc
    rw [htrim] at hc
    apply hrhead c
    rw [hr2]
    cases ht : (r.reverse.dropWhile isSpace).reverse with
    | nil => rw [ht] at hc; cases hc
    | cons a as => rw [ht] at hc; simpa using hc
  · intro c hc
    rw [htrim, List.getLast?_reverse] at hc
    have := List.head?_dropWhile_not isSpace r.reverse
    rw [hc] at this
    exact this

/-- A decimal integer contains no white space. -/
theorem DecimalText_no_space (p : String) (n : Int) (hp : DecimalText p n) :
    p.data ≠ [] ∧ ∀ c ∈ p.data, isSpace c = false := by
  obtain ⟨ds, hne, hd, hcase⟩ := hp
  have hds : ∀ c ∈ ds, isSpace c = false := fun c hc => isSpace_of_isDigit c (hd c hc)
  rcases hcase with ⟨hdata, _⟩ | ⟨hdata, _⟩ | ⟨hdata, _⟩ <;> rw [hdata]
  · exact ⟨hne, hds⟩
  · refine ⟨by simp, ?_⟩
    intro c hc
    rcases List.mem_cons.1 hc with rfl | hc
    · decide
    · exact hds c hc
  · refine ⟨by simp, ?_⟩
    intro c hc
    rcases List.mem_cons.1 hc with rfl | hc
    · decide
    · exact hds c hc

/-- A token equals the decimal rendering of a port after trimming exactly when it is
the rendering with white space around it. -/
theorem TrimSpace_eq_Itoa_iff (token : String) (port : Int) :
    TrimSpace token = Itoa port ↔ PaddedWith token (Itoa port) := by
  obtain ⟨hne, hns⟩ := DecimalText_no_space (Itoa port) port (Itoa_decimal port)
  constructor
  · intro h
    have := (TrimSpace_spec token).1
    rw [h] at this
    exact this
  · rintro ⟨pre, post, hdata, hpre, hpost⟩
    have htok : token = String.mk (pre ++ (Itoa port).data ++ post) := by
      rw [← hdata]
    rw [htok, TrimSpace_padded pre (Itoa port).data post hpre hpost hne
      (fun c hc => hns c (List.mem_of_mem_head? hc))
      (fun c hc => hns c (List.mem_of_getLast?_eq_some hc))]

theorem portListed_iff (portsText : String) (port : Int) :
    portListed portsText port ↔
      ∃ token ∈ Split portsText ',', PaddedWith token (Itoa port) := by
  unfold portListed
  constructor
  · rintro ⟨token, hm, h⟩
    exact ⟨token, hm, (TrimSpace_eq_Itoa_iff token port).1 h⟩
  · rintro ⟨token, hm, h⟩
    exact ⟨token, hm, (TrimSpace_eq_Itoa_iff token port).2 h⟩

/-- C6: `RemovePort` with `removeAll = false`, on arguments that pass the validation
(the selector text parses, and the selector set or the ports text is not empty).
The call returns, and the resulting rules are the original rules, in their order,
each with exactly its mappings of which neither the local nor the remote port is
listed in the ports text, the rules that retain no mapping being dropped;
namespace, selector and service reference of the kept rules are unchanged. A port
is listed exactly when some comma-separated token of the ports text is the decimal
rendering of the port with white space around it; what trimming removes from a
token is white space, and what it leaves neither begins nor ends with white space.
For the rules `{app=a,[(80,80)]}`, `{app=b,[(90,90)]}` the ports text `"80"` and
the ports text `" 80 ,7"` give `{app=b,[(90,90)]}`, and the ports text
`"8 0,\t90\n"`, in which only the token of 90 is a padded rendering, gives
`{app=a,[(80,80)]}`. -/
theorem removePort_filter (save : Config → Option Error) (s : State)
    (labelSelector : String) (args : List String) (m : LabelMap) (dev : DevConfig)
    (hsel : parseSelectors labelSelector = .ok m)
    (hvalid : ¬ (m.len = 0 ∧ argPorts args = ""))
    (hdev : s.config.Dev = some dev) :
    (∃ s1 e, RemovePort save s false labelSelector args = some (s1, e) ∧
      s1.config.rules = filteredRules (argPorts args) s.config.rules) ∧
    (∀ port : Int, portListed (argPorts args) port ↔
      ∃ token ∈ Split (argPorts args) ',', PaddedWith token (Itoa port)) ∧
    (∀ token : String, PaddedWith token (TrimSpace token) ∧
      (∀ c, (TrimSpace token).data.head? = some c → isSpace c = false) ∧
      (∀ c, (TrimSpace token).data.getLast? = some c → isSpace c = false)) ∧
    (RemovePort (fun _ => none) ⟨configWith [ruleA, ruleB], []⟩ false "" ["80"]).map
      (fun r => r.1.config.rules) = some [ruleB] ∧
    (RemovePort (fun _ => none) ⟨configWith [ruleA, ruleB], []⟩ false "" [" 80 ,7"]).map
      (fun r => r.1.config.rules) = some [ruleB] ∧
    (RemovePort (fun _ => none) ⟨configWith [ruleA, ruleB], []⟩ false "" ["8 0,\t90\n"]).map
      (fun r => r.1.config.rules) = some [ruleA] := by
  refine ⟨?_, portListed_iff (argPorts args), TrimSpace_spec, by decide, by decide,
    by decide⟩
  obtain ⟨s1, e, hcall, hne, hnil⟩ := RemovePort_rules save s false labelSelector args m dev
    hsel (by simpa using hvalid) hdev
  refine ⟨s1, e, hcall, ?_⟩
  by_cases hr : s.config.rules = []
  · rw [hnil hr, hr]; rfl
  · rw [hne hr]; rfl

/-- Witness of C6: the rules `ruleA`, `ruleB`, the empty selector text and the ports
text `" 80 ,7"`, whose first token is the rendering of 80 between two spaces. -/
theorem removePort_filter_witness :
    (∃ s1 e, RemovePort (fun _ => none) ⟨configWith [ruleA, ruleB], []⟩ false "" [" 80 ,7"] =
        some (s1, e) ∧
      s1.config.rules =
        filteredRules (argPorts [" 80 ,7"]) (configWith [ruleA, ruleB]).rules) ∧
    (∀ port : Int, portListed (argPorts [" 80 ,7"]) port ↔
      ∃ token ∈ Split (argPorts [" 80 ,7"]) ',', PaddedWith token (Itoa port)) ∧
    (∀ token : String, PaddedWith token (TrimSpace token) ∧
      (∀ c, (TrimSpace token).data.head? = some c → isSpace c = false) ∧
      (∀ c, (TrimSpace token).data.getLast? = some c → isSpace c = false)) ∧
    (RemovePort (fun _ => none) ⟨configWith [ruleA, ruleB], []⟩ false "" ["80"]).map
      (fun r => r.1.config.rules) = some [ruleB] ∧
    (RemovePort (fun _ => none) ⟨configWith [ruleA, ruleB], []⟩ false "" [" 80 ,7"]).map
      (fun r => r.1.config.rules) = some [ruleB] ∧
    (RemovePort (fun _ => none) ⟨configWith [ruleA, ruleB], []⟩ false "" ["8 0,\t90\n"]).map
      (fun r => r.1.config.rules) = some [ruleA] :=
  removePort_filter (fun _ => none) ⟨configWith [ruleA, ruleB], []⟩ "" [" 80 ,7"] (some [])
    { Selectors := none, Ports := some [ruleA, ruleB] } (by decide) (by decide) rfl

/-! ## Configs on which the code dereferences nil -/

/-- Counterexample to C14: the only deployment of `namelessHelmConfig` is Helm-based
and has no name; the dereference of line 17 panics, so that neither a name nor
`"devspace"` is returned, although no deployment has a name. -/
theorem getNameOfFirstHelmDeployment_nameless_counterexample :
    (∀ d ∈ namelessHelmConfig.deployments, d.Name = none) ∧
    firstHelmDeployment namelessHelmConfig = some { Name := none, Helm := some () } ∧
    GetNameOfFirstHelmDeployment namelessHelmConfig = none ∧
    GetNameOfFirstHelmDeployment namelessHelmConfig ≠ some "devspace" := by
  decide

/-- C15, as amended: `RemovePort` saves only when there was something to remove
from. On arguments that pass the validation: when the rule sequence was not empty
at the start the call returns and the save of the config store is called exactly
once, on the resulting config; when the config has a `Dev` section and its rule
sequence was absent or empty, the save is not called and the call returns
without error and with the config unchanged. -/
theorem removePort_saves_once (save : Config → Option Error) (s : State)
    (removeAll : Bool) (labelSelector : String) (args : List String) (m : LabelMap)
    (hsel : parseSelectors labelSelector = .ok m)
    (hvalid : ¬ (m.len = 0 ∧ removeAll = false ∧ argPorts args = "")) :
    (s.config.rules ≠ [] →
      ∃ s1 e, RemovePort save s removeAll labelSelector args = some (s1, e) ∧
        s1.saveCalls = s.saveCalls ++ [s1.config]) ∧
    (s.config.Dev ≠ none → s.config.rules = [] →
      RemovePort save s removeAll labelSelector args = some (s, none)) := by
  cases hdev : s.config.Dev with
  | none => exact ⟨fun h => absurd (by simp [Config.rules, hdev]) h, fun h => absurd rfl h⟩
  | some dev =>
    rw [RemovePort_eq save s removeAll labelSelector args m dev hsel hvalid hdev]
    cases hp : dev.Ports with
    | none => exact ⟨fun h => absurd (by simp [Config.rules, hdev, hp]) h, fun _ _ => rfl⟩
    | some ps =>
      cases ps with
      | nil => exact ⟨fun h => absurd (by simp [Config.rules, hdev, hp]) h, fun _ _ => rfl⟩
      | cons v rest =>
        exact ⟨fun _ => ⟨_, _, rfl, rfl⟩, fun _ h => by simp [Config.rules, hdev, hp] at h⟩

/-- Witness of C15 as amended: a removal of port 80 from the rules `ruleA`, `ruleB`,
and from a config whose rule sequence is empty. -/
theorem removePort_saves_once_witness :
    (∃ s1 e, RemovePort (fun _ => none) ⟨configWith [ruleA, ruleB], []⟩ false "" ["80"] =
        some (s1, e) ∧
      s1.saveCalls = [] ++ [s1.config]) ∧
    RemovePort (fun _ => none) ⟨configWith [], []⟩ false "" ["80"] =
      some (⟨configWith [], []⟩, none) :=
  ⟨(removePort_saves_once (fun _ => none) ⟨configWith [ruleA, ruleB], []⟩ false "" ["80"]
      (some []) (by decide) (by decide)).1 (by decide),
   (removePort_saves_once (fun _ => none) ⟨configWith [], []⟩ false "" ["80"]
      (some []) (by decide) (by decide)).2 (by decide) (by decide)⟩

/-- Counterexample to C15: `bareConfig` has no `Dev` section, so its rule sequence is
absent; the arguments pass the validation, and the dereference of line 96 panics:
the call does not return. -/
theorem removePort_without_dev_counterexample :
    bareConfig.rules = [] ∧
    parseSelectors "" = .ok (some []) ∧
    ¬ (LabelMap.len (some []) = 0 ∧ false = false ∧ argPorts ["80"] = "") ∧
    RemovePort (fun _ => none) ⟨bareConfig, []⟩ false "" ["80"] = none := by
  decide

/-- Where the resolution of the target selector panics: with an empty label
selector and no configured selector list, when the first Helm-based deployment has
no name. -/
theorem target_eq_none_iff (config : Config) (labelSelector serviceName : String) :
    AddPort.target config labelSelector serviceName = none ↔
      (labelSelector = "" ∧ configuredSelectors config = none ∧
        GetNameOfFirstHelmDeployment config = none) := by
  constructor
  · intro h
    by_contra hcond
    apply absurd h
    by_cases hl : labelSelector = ""
    · cases hconf : configuredSelectors config with
      | none =>
        cases hname : GetNameOfFirstHelmDeployment config with
        | none => exact absurd ⟨hl, hconf, hname⟩ hcond
        | some name => exact target_ne_none config labelSelector serviceName (by simp [hname])
      | some services =>
        have hres : AddPort.resolve config labelSelector serviceName ≠ none := by
          unfold AddPort.resolve
          simp only [hl, if_true, hconf]
          by_cases hs : serviceName = ""
          · cases services with
            | nil => exact absurd rfl (configuredSelectors_ne_nil config [] hconf)
            | cons first more => simp [hs]
          · cases hget : getServiceWithName services serviceName <;> simp [hs, hget]
        unfold AddPort.target
        cases hr : AddPort.resolve config labelSelector serviceName with
        | none => exact absurd hr hres
        | some r =>
          cases r with
          | error err => simp
          | ok pair =>
            obtain ⟨m, text⟩ := pair
            cases m with
            | none => cases hp : parseSelectors text <;> simp [hp]
            | some kvs => simp
    · have hres : AddPort.resolve config labelSelector serviceName =
          some (.ok (none, labelSelector)) := by simp [AddPort.resolve, hl]
      rw [target_of_text config labelSelector serviceName _ hres]
      simp
  · rintro ⟨hl, hconf, hname⟩
    simp [AddPort.target, AddPort.resolve, hl, hconf, hname]

/-- C16, as amended: `AddPort` is atomic on parse errors. When the selector text,
given as label selector or made up as `"release="` with the name of the first
Helm-based deployment, is rejected by the selector parser, `AddPort` returns an
error and leaves the state of the config store as it was. When the port-mapping
text is rejected by `parsePortMappings`, every return of `AddPort` is an error
return that leaves the state of the config store as it was (same rule sequence, no
save), and `AddPort` does return unless the label selector is empty, no selector
list is configured and the first Helm-based deployment has no name. -/
theorem addPort_parse_error_atomic (save : Config → Option Error) (s : State)
    (nspace labelSelector serviceName : String) (args : List String) :
    ((parseSelectors labelSelector).isOk = false →
      ∃ e, AddPort save s nspace labelSelector serviceName args = some (s, some e)) ∧
    (∀ name, labelSelector = "" → configuredSelectors s.config = none →
      GetNameOfFirstHelmDeployment s.config = some name →
      (parseSelectors ("release=" ++ name)).isOk = false →
      ∃ e, AddPort save s nspace labelSelector serviceName args = some (s, some e)) ∧
    (∀ arg0 rest, args = arg0 :: rest → (parsePortMappings arg0).isOk = false →
      (¬ (labelSelector = "" ∧ configuredSelectors s.config = none ∧
          GetNameOfFirstHelmDeployment s.config = none) →
        ∃ e, AddPort save s nspace labelSelector serviceName args = some (s, some e)) ∧
      (∀ s1 e, AddPort save s nspace labelSelector serviceName args = some (s1, e) →
        s1 = s ∧ e ≠ none)) := by
  refine ⟨?_, ?_, ?_⟩
  · intro hrej
    have hl : labelSelector ≠ "" := by
      intro hl
      rw [hl, parseSelectors_empty] at hrej
      cases hrej
    by_cases hboth : labelSelector ≠ "" ∧ serviceName ≠ ""
    · exact ⟨bothSpecified, by rw [AddPort, if_pos hboth]⟩
    · have hres : AddPort.resolve s.config labelSelector serviceName =
          some (.ok (none, labelSelector)) := by simp [AddPort.resolve, hl]
      have ht := target_of_text s.config labelSelector serviceName _ hres
      cases hp : parseSelectors labelSelector with
      | ok m => rw [hp] at hrej; cases hrej
      | error err =>
        refine ⟨.wrapf "Error parsing selectors: " err, ?_⟩
        rw [AddPort, if_neg hboth, ht]
        simp [parsedSelectors, hp]
  · intro name hl hconf hname hrej
    have hboth : ¬ (labelSelector ≠ "" ∧ serviceName ≠ "") := fun h => h.1 hl
    have hres : AddPort.resolve s.config labelSelector serviceName =
        some (.ok (none, "release=" ++ name)) := by
      simp [AddPort.resolve, hl, hconf, hname]
    have ht := target_of_text s.config labelSelector serviceName _ hres
    cases hp : parseSelectors ("release=" ++ name) with
    | ok m => rw [hp] at hrej; cases hrej
    | error err =>
      refine ⟨.wrapf "Error parsing selectors: " err, ?_⟩
      rw [AddPort, if_neg hboth, ht]
      simp [parsedSelectors, hp]
  · intro arg0 rest hargs hrej
    subst hargs
    refine ⟨?_, ?_⟩
    · intro hcond
      by_cases hboth : labelSelector ≠ "" ∧ serviceName ≠ ""
      · exact ⟨bothSpecified, by rw [AddPort, if_pos hboth]⟩
      · cases ht : AddPort.target s.config labelSelector serviceName with
        | none => exact absurd ((target_eq_none_iff _ _ _).1 ht) hcond
        | some r =>
          cases r with
          | error err => exact ⟨err, by rw [AddPort, if_neg hboth, ht]⟩
          | ok target =>
            cases hp : parsePortMappings arg0 with
            | ok ms => rw [hp] at hrej; cases hrej
            | error err =>
              exact ⟨.wrapf "Error parsing port mappings: " err, by
                rw [AddPort, if_neg hboth, ht]; simp [hp]⟩
    · intro s1 e hcall
      rcases AddPort_cases save s s1 nspace labelSelector serviceName _ e hcall with
        h | ⟨_, a0, r0, ms, _, _, _, hargs, hp, _, _, _⟩
      · exact h
      · simp only [List.cons.injEq] at hargs
        rw [hargs.1, hp] at hrej
        cases hrej

/-- Witness of C16 as amended: a selector text without `=`; the name `a=b`, which
makes the text `release=a=b`; and a port text with three parts, on a config without
deployments and, with the label selector `app=a`, on `namelessHelmConfig`. -/
theorem addPort_parse_error_atomic_witness :
    (∃ e, AddPort (fun _ => none) ⟨configWith [ruleA], []⟩ "dev" "app" "" ["80"] =
      some (⟨configWith [ruleA], []⟩, some e)) ∧
    (∃ e, AddPort (fun _ => none) ⟨oddNameConfig, []⟩ "dev" "" "" ["80"] =
      some (⟨oddNameConfig, []⟩, some e)) ∧
    (∃ e, AddPort (fun _ => none) ⟨configWith [ruleA], []⟩ "dev" "" "" ["80:81:82"] =
      some (⟨configWith [ruleA], []⟩, some e)) ∧
    (∃ e, AddPort (fun _ => none) ⟨namelessHelmConfig, []⟩ "dev" "app=a" "" ["80:81:82"] =
      some (⟨namelessHelmConfig, []⟩, some e)) :=
  ⟨(addPort_parse_error_atomic (fun _ => none) ⟨configWith [ruleA], []⟩ "dev" "app" ""
      ["80"]).1 (by decide),
   (addPort_parse_error_atomic (fun _ => none) ⟨oddNameConfig, []⟩ "dev" "" ""
      ["80"]).2.1 "a=b" rfl (by decide) (by decide) (by decide),
   ((addPort_parse_error_atomic (fun _ => none) ⟨configWith [ruleA], []⟩ "dev" "" ""
      ["80:81:82"]).2.2 "80:81:82" [] rfl (by decide)).1 (by decide),
   ((addPort_parse_error_atomic (fun _ => none) ⟨namelessHelmConfig, []⟩ "dev" "app=a" ""
      ["80:81:82"]).2.2 "80:81:82" [] rfl (by decide)).1 (by decide)⟩

/-- Counterexample to C16: on `namelessHelmConfig`, with an empty label selector, the
port text `"80:81:82"` is rejected by `parsePortMappings`, but `AddPort` panics in
the lookup of the default name (line 17) before the port text is read: no error is
returned. -/
theorem addPort_parse_error_nameless_counterexample :
    (parsePortMappings "80:81:82").isOk = false ∧
    AddPort (fun _ => none) ⟨namelessHelmConfig, []⟩ "dev" "" "" ["80:81:82"] = none := by
  decide

end Devspace.Configure
